import Mathlib

set_option maxRecDepth 100000

/-!
Shallow embedding of the chart-dashboard's asset resolver and HTML chart
embedder (`streamlit_app.py`), together with proofs about the claims of the
specification.  File paths are plain strings; the filesystem is modelled as an
association list from paths to either file contents or a read error.  The two
display helpers `display_html_file` and `display_html_map` are translated into
total Lean functions returning an `Outcome` value; Python exceptions caught by
the top-level handlers become the `Outcome.errorMsg` constructor.  Regular
expressions from the source are hand-compiled into character-list scanners with
Python `re` semantics (leftmost match, greedy/lazy backtracking as in the
source patterns); numbers inside embedded JSON are modelled as integers.
-/

/-- A single-quote character (ASCII 39), used in Python-style error messages. -/
def sQuote : String := String.singleton (Char.ofNat 39)

/-- The filesystem: each entry maps an absolute path to its content
(`Except.ok`) or to a read failure message (`Except.error`), modelling
`open`/`read` raising an exception. -/
def FileSys : Type := List (String × Except String String)

/-- `os.path.exists`: does the path have an entry in the filesystem? -/
def fsExists (fs : FileSys) (p : String) : Bool :=
  (List.find? (fun e => e.1 = p) fs).isSome

/-- Reading a resolved path: the stored content or the stored read error. -/
def fsRead (fs : FileSys) (p : String) : Except String String :=
  match List.find? (fun e => e.1 = p) fs with
  | some e => e.2
  | none => Except.error ("No such file or directory: " ++ sQuote ++ p ++ sQuote)

/-- `os.path.join` for two components (POSIX): an absolute second component
replaces the first; otherwise a separator is inserted unless already present. -/
def pjoin (a b : String) : String :=
  match b.toList with
  | '/' :: _ => b
  | _ =>
    if a = "" then b
    else match a.toList.getLast? with
      | some '/' => a ++ b
      | _ => a ++ "/" ++ b

/-- `os.path.basename`: the part after the last slash. -/
def basename (p : String) : String :=
  String.mk ((p.toList.reverse.takeWhile (fun c => c != '/')).reverse)

/-- The application directory (`CURRENT_DIR` in the source, derived there from
the location of the script file; one fixed deployment location is modelled). -/
def CURRENT_DIR : String := "/app"

def TIME_SERIES_DIR : String := pjoin CURRENT_DIR "Time Series"

def MAPS_DIR : String := pjoin CURRENT_DIR "Maps"

def HOOD_DIR : String := pjoin CURRENT_DIR "Neighborhoods"

def MODEL_DIR : String := pjoin CURRENT_DIR "Modelling"

/-- The fallback candidate paths probed by `display_html_file` (source lines
43–49), in their listed order. -/
def altPaths (filename : String) : List String :=
  [ pjoin CURRENT_DIR filename
  , pjoin TIME_SERIES_DIR filename
  , pjoin MAPS_DIR filename
  , pjoin HOOD_DIR filename
  , pjoin MODEL_DIR filename ]

/-- Path verification of `display_html_file` (source lines 40–60): the
requested path if it exists, otherwise the first existing fallback. -/
def resolvePath (fs : FileSys) (file_path : String) : Option String :=
  if fsExists fs file_path then some file_path
  else List.find? (fun p => fsExists fs p) (altPaths (basename file_path))

/-- The single fallback candidate probed by `display_html_map` (source lines
144–146). -/
def mapAltPaths (filename : String) : List String :=
  [ pjoin (pjoin CURRENT_DIR "Maps") filename ]

/-- Path verification of `display_html_map` (source lines 142–156). -/
def resolveMapPath (fs : FileSys) (file_path : String) : Option String :=
  if fsExists fs file_path then some file_path
  else List.find? (fun p => fsExists fs p) (mapAltPaths (basename file_path))

/-- The observable outcome of one display call: a warning (`st.warning`), an
error message (`st.error`, from the top-level exception handler), or a rendered
component (`components.html` with its html string, height, width, scrolling). -/
inductive Outcome where
  | warning (msg : String)
  | errorMsg (msg : String)
  | rendered (html : String) (height : Nat) (width : Option Nat) (scrolling : Bool)
deriving DecidableEq

/-- Generic fuelled scanner with Python `re.sub`-style semantics: at each
position try the matcher `f`; on `some (e, k)` emit `e` and skip `k + 1`
consumed characters, otherwise keep the character and move on.  Matchers
always consume at least one character (the `+ 1`). -/
def scanF (f : List Char → Option (List Char × Nat)) : Nat → List Char → List Char
  | 0, l => l
  | _+1, [] => []
  | fu+1, c :: cs =>
    match f (c :: cs) with
    | some (e, k) => e ++ scanF f fu (cs.drop k)
    | none => c :: scanF f fu cs

/-- Scanner with enough fuel for its input. -/
def scanS (f : List Char → Option (List Char × Nat)) (l : List Char) : List Char :=
  scanF f l.length l

/-- Matcher for replacing a fixed non-empty pattern (Python `str.replace`,
all non-overlapping occurrences, left to right). -/
def replTry (pat rep : List Char) (l : List Char) : Option (List Char × Nat) :=
  match pat with
  | [] => none
  | p0 :: pr => if List.isPrefixOf (p0 :: pr) l then some (rep, pr.length) else none

/-- Python `str.replace`: replace every occurrence of `pat` by `rep`. -/
def replaceAllS (s pat rep : String) : String :=
  String.mk (scanS (replTry pat.toList rep.toList) s.toList)

/-- Python `in` on strings: substring containment. -/
def containsStr (s pat : String) : Bool :=
  s.toList.tails.any (fun t => List.isPrefixOf pat.toList t)

/-- All indices (0-based, in ascending order) at which `pat` occurs in `l`. -/
def occIdxs (pat : List Char) (l : List Char) : List Nat :=
  (List.range (l.length + 1)).filter (fun i => List.isPrefixOf pat (l.drop i))

/-- Does any suffix of `l` start a match of `f`? -/
def anyMatch (f : List Char → Option (List Char × Nat)) (l : List Char) : Bool :=
  l.tails.any (fun t => (f t).isSome)

/-- Python `\s` on the ASCII range. -/
def isSpc (c : Char) : Bool :=
  [' ', '\t', '\n', '\x0b', '\x0c', '\r'].contains c

/-- Length of the whitespace run of `l` starting at index `pos`. -/
def wsRunAt (l : List Char) (pos : Nat) : Nat :=
  ((l.drop pos).takeWhile isSpc).length

/-- Tail of the svg-attribute pattern `\s+ATTR="[^"]*"` at the start of `t`:
maximal whitespace run (at least one), the literal `ATTR="`, a maximal run of
non-quote characters, a closing quote.  Returns the number of characters
consumed. -/
def tailAttrLen (attr : List Char) (t : List Char) : Option Nat :=
  let w := (t.takeWhile isSpc).length
  if w = 0 then none
  else
    let lit := attr ++ ['=', '"']
    let t2 := t.drop w
    if List.isPrefixOf lit t2 then
      let t3 := t2.drop lit.length
      let v := (t3.takeWhile (fun c => c != '"')).length
      match t3.drop v with
      | '"' :: _ => some (w + lit.length + v + 1)
      | _ => none
    else none

/-- Matcher for `re.sub(r'(<svg[^>]*)\s+ATTR="[^"]*"', r'\1', ...)` (source
lines 91–92 and 169–170): after the literal `<svg`, the greedy `[^>]*` takes
the largest extension `k` whose continuation matches the attribute tail; the
emitted text is group 1 (`<svg` plus those `k` characters). -/
def svgTry (attr : List Char) (l : List Char) : Option (List Char × Nat) :=
  if List.isPrefixOf "<svg".toList l then
    let body := l.drop 4
    let n := (body.takeWhile (fun c => c != '>')).length
    match List.findSome?
        (fun k => (tailAttrLen attr (body.drop k)).map (fun t => (k, t)))
        ((List.range (n + 1)).reverse) with
    | some (k, t) => some (l.take (4 + k), 4 + k + t - 1)
    | none => none
  else none

/-- Matcher for `re.sub(r'PROP:\s*[0-9]+px;?', '', ...)` (source lines
165–166): the literal `PROP:`, optional whitespace, at least one digit, the
literal `px`, an optional semicolon; the match is deleted. -/
def pxTry (prop : List Char) (l : List Char) : Option (List Char × Nat) :=
  let lit := prop ++ [':']
  if List.isPrefixOf lit l then
    let t := l.drop lit.length
    let w := (t.takeWhile isSpc).length
    let t2 := t.drop w
    let d := (t2.takeWhile Char.isDigit).length
    if d = 0 then none
    else if List.isPrefixOf ['p', 'x'] (t2.drop d) then
      let semi := match t2.drop (d + 2) with | ';' :: _ => 1 | _ => 0
      some ([], lit.length + w + d + 2 + semi - 1)
    else none
  else none

/-- Source line 91: strip the last `height="..."` attribute of each svg tag. -/
def stripSvgHeight (s : String) : String :=
  String.mk (scanS (svgTry "height".toList) s.toList)

/-- Source line 92: strip the last `width="..."` attribute of each svg tag. -/
def stripSvgWidth (s : String) : String :=
  String.mk (scanS (svgTry "width".toList) s.toList)

/-- Source line 165: delete every `height: <digits>px;?` style declaration. -/
def stripPxHeight (s : String) : String :=
  String.mk (scanS (pxTry "height".toList) s.toList)

/-- Source line 166: delete every `width: <digits>px;?` style declaration. -/
def stripPxWidth (s : String) : String :=
  String.mk (scanS (pxTry "width".toList) s.toList)

def newPlotLit : List Char := "Plotly.newPlot(".toList

/-- Source line 68: `re.search(r'Plotly\.newPlot\((.*)\);', html, re.DOTALL)`
succeeds iff some occurrence of the literal call opener is followed (at
distance at least the opener's length) by an occurrence of `);`. -/
def hasNewPlotCall (html : String) : Bool :=
  let l := html.toList
  (occIdxs newPlotLit l).any
    (fun i => (occIdxs [')', ';'] l).any (fun j => i + 15 ≤ j))

def umLit : List Char := "\"updatemenus\":".toList

/-- Continuation of the layout regex after the group-internal literal
`"updatemenus":` ended at index `r`, with the group having started at `g`:
greedy `.*` up to a `}` at `c1`, then `,\s*` and an opening `{`, greedy `.*`
up to a `}` at `c2`, then `);`.  Candidates are tried latest-first (greedy).
On success the captured group is `l[g..c1]`. -/
def layoutTail2 (l : List Char) (g r : Nat) : Option (List Char) :=
  List.findSome?
    (fun c1 =>
      if l.get? (c1 + 1) = some ',' then
        let q2 := c1 + 2 + wsRunAt l (c1 + 2)
        if l.get? q2 = some '{' then
          match List.findSome?
              (fun c2 =>
                if l.get? (c2 + 1) = some ')' ∧ l.get? (c2 + 2) = some ';'
                then some () else none)
              (((occIdxs ['}'] l).filter (fun c2 => q2 + 1 ≤ c2)).reverse) with
          | some _ => some ((l.drop g).take (c1 + 1 - g))
          | none => none
        else none
      else none)
    (((occIdxs ['}'] l).filter (fun c1 => r ≤ c1)).reverse)

/-- Continuation of the layout regex after the lazy `.*?` placed the `]` of the
data array at index `p`: the literal `,`, optional whitespace, and the opening
`{` of the captured layout group; inside the group the greedy `.*` chooses the
latest feasible occurrence of `"updatemenus":`. -/
def layoutGroupAt (l : List Char) (p : Nat) : Option (List Char) :=
  if l.get? (p + 1) = some ',' then
    let q := p + 2 + wsRunAt l (p + 2)
    if l.get? q = some '{' then
      List.findSome? (fun u => layoutTail2 l q (u + 14))
        (((occIdxs umLit l).filter (fun u => q + 1 ≤ u)).reverse)
    else none
  else none

/-- The layout regex of source line 71,
`Plotly\.newPlot\([^,]+,\s*\[.*?\],\s*({.*"updatemenus":.*}),\s*{.*}\);`
(DOTALL), attempted at the opener occurrence starting at index `i`:
`[^,]+` takes the maximal non-comma run, then `,\s*[`, then the lazy `.*?`
tries each later `]` in ascending order. -/
def tryLayoutAt (l : List Char) (i : Nat) : Option (List Char) :=
  let j0 := i + 15
  let n := ((l.drop j0).takeWhile (fun c => c != ',')).length
  if n = 0 then none
  else if l.get? (j0 + n) = some ',' then
    let j2 := j0 + n + 1
    let j3 := j2 + wsRunAt l j2
    if l.get? j3 = some '[' then
      List.findSome? (fun p => layoutGroupAt l p)
        ((occIdxs [']'] l).filter (fun p => j3 + 1 ≤ p))
    else none
  else none

/-- `re.search` of the layout regex over the whole document: occurrences of the
call opener are tried left to right, and the captured group of the first
successful one is returned (source line 71, `layout_match.group(1)`). -/
def extractLayout (html : String) : Option String :=
  let l := html.toList
  (List.findSome? (fun i => tryLayoutAt l i) (occIdxs newPlotLit l)).map String.mk

/-!
JSON values as parsed by `json.loads`.  Arrays and objects use dedicated
mutual list types so that all recursion over values is structural.  Numbers
are modelled as integers (the animation durations handled by the source are
integers; inputs with fractional or exponent literals are outside the model
and fail to parse).
-/

mutual
inductive Json where
  | jnull
  | jbool (b : Bool)
  | jnum (n : Int)
  | jstr (s : String)
  | jarr (xs : JList)
  | jobj (fs : JMembers)
deriving DecidableEq
inductive JList where
  | jnil
  | jcons (hd : Json) (tl : JList)
deriving DecidableEq
inductive JMembers where
  | mnil
  | mcons (k : String) (v : Json) (tl : JMembers)
deriving DecidableEq
end

def JList.toList : JList → List Json
  | .jnil => []
  | .jcons x tl => x :: tl.toList

/-- Indexing a Python list. -/
def getJ : JList → Nat → Option Json
  | .jnil, _ => none
  | .jcons x _, 0 => some x
  | .jcons _ tl, n + 1 => getJ tl n

/-- In-place update of a Python list element. -/
def setJ : JList → Nat → Json → JList
  | .jnil, _, _ => .jnil
  | .jcons _ tl, 0, v => .jcons v tl
  | .jcons x tl, n + 1, v => .jcons x (setJ tl n v)

/-- First value stored under a key (`json.loads` objects have unique keys). -/
def lookupF : JMembers → String → Option Json
  | .mnil, _ => none
  | .mcons k v tl, key => if k = key then some v else lookupF tl key

/-- Replace the value under an existing key, keeping its position. -/
def replaceF : JMembers → String → Json → JMembers
  | .mnil, _, _ => .mnil
  | .mcons k v tl, key, nv =>
    if k = key then .mcons k nv tl else .mcons k v (replaceF tl key nv)

def appendF : JMembers → String → Json → JMembers
  | .mnil, key, nv => .mcons key nv .mnil
  | .mcons k v tl, key, nv => .mcons k v (appendF tl key nv)

/-- Python `dict.__setitem__`: replace an existing key in place, else append. -/
def setKeyF (fs : JMembers) (key : String) (nv : Json) : JMembers :=
  if (lookupF fs key).isSome then replaceF fs key nv
  else appendF fs key nv

def hasKeyF (fs : JMembers) (key : String) : Bool :=
  (lookupF fs key).isSome

/-- Python type name of a JSON value, for `TypeError` messages. -/
def typeName : Json → String
  | .jnull => "NoneType"
  | .jbool _ => "bool"
  | .jnum _ => "int"
  | .jstr _ => "str"
  | .jarr _ => "list"
  | .jobj _ => "dict"

def keyErrMsg (k : String) : String := sQuote ++ k ++ sQuote

def idxErrMsg : String := "list index out of range"

def strIdxErrMsg : String :=
  "string indices must be integers, not " ++ sQuote ++ "str" ++ sQuote

def notSubscrMsg (j : Json) : String :=
  sQuote ++ typeName j ++ sQuote ++ " object is not subscriptable"

def noSetItemMsg (j : Json) : String :=
  sQuote ++ typeName j ++ sQuote ++ " object does not support item assignment"

/-- `x[key] = v` (the final item assignment of a Python statement). -/
def setKey (key : String) (v : Json) : Json → Except String Json
  | .jobj fs => .ok (.jobj (setKeyF fs key v))
  | .jarr _ => .error "list indices must be integers or slices, not str"
  | .jstr _ => .error (noSetItemMsg (.jstr ""))
  | j => .error (noSetItemMsg j)

/-- `x[key]` followed by a deeper mutation `f` on the retrieved value, with the
result stored back (this models Python's in-place mutation of the child; the
retrieval errors are Python's). -/
def updKey (key : String) (f : Json → Except String Json) : Json → Except String Json
  | .jobj fs =>
    match lookupF fs key with
    | some v => (f v).map (fun v' => .jobj (replaceF fs key v'))
    | none => .error (keyErrMsg key)
  | .jarr _ => .error "list indices must be integers or slices, not str"
  | .jstr _ => .error strIdxErrMsg
  | j => .error (notSubscrMsg j)

/-- `x[i]` followed by a deeper mutation `f`, result stored back.  Indexing a
string yields a one-character string on which every further subscript or item
assignment fails, so the string write-back is unreachable. -/
def updIdx (i : Nat) (f : Json → Except String Json) : Json → Except String Json
  | .jarr xs =>
    match getJ xs i with
    | some v => (f v).map (fun v' => .jarr (setJ xs i v'))
    | none => .error idxErrMsg
  | .jobj _ => .error (String.mk (Nat.toDigits 10 i))
  | .jstr s =>
    match s.data[i]? with
    | some c => (f (.jstr (String.singleton c))).bind
        (fun _ => .error (noSetItemMsg (.jstr "")))
    | none => .error "string index out of range"
  | j => .error (notSubscrMsg j)

instance {ε α : Type} [DecidableEq ε] [DecidableEq α] : DecidableEq (Except ε α) :=
  fun x y =>
    match x, y with
    | .ok a, .ok b => if h : a = b then isTrue (by rw [h]) else isFalse (by simp [h])
    | .error a, .error b => if h : a = b then isTrue (by rw [h]) else isFalse (by simp [h])
    | .ok _, .error _ => isFalse (by simp)
    | .error _, .ok _ => isFalse (by simp)

/-- The subscript path shared by the two play-button statements of source
lines 77–78: `layout['updatemenus'][0]['buttons'][0]['args'][1]`, with the
innermost mutation `g` applied to the retrieved args object. -/
def updBtn (g : Json → Except String Json) : Json → Except String Json :=
  updKey "updatemenus" (updIdx 0 (updKey "buttons" (updIdx 0
    (updKey "args" (updIdx 1 g)))))

/-- The subscript path shared by the two slider-step statements of source
lines 82–83: `step['args'][1]`. -/
def updStepArg (g : Json → Except String Json) : Json → Except String Json :=
  updKey "args" (updIdx 1 g)

/-- The per-step mutation of source lines 82–83:
`step['args'][1]['frame']['duration'] = d; step['args'][1]['transition']['duration'] = 0`. -/
def stepUpd (d : Int) (step : Json) : Except String Json :=
  match updStepArg (updKey "frame" (setKey "duration" (.jnum d))) step with
  | .error e => .error e
  | .ok s1 => updStepArg (updKey "transition" (setKey "duration" (.jnum 0))) s1

def stepsMapM (d : Int) : JList → Except String JList
  | .jnil => .ok .jnil
  | .jcons x tl =>
    match stepUpd d x with
    | .error e => .error e
    | .ok x' =>
      match stepsMapM d tl with
      | .error e => .error e
      | .ok tl' => .ok (.jcons x' tl')

/-- Python `for step in steps` over the retrieved `steps` value: lists are
iterated; iterating a dict yields its keys and iterating a string yields
one-character strings, on which the first subscript of the loop body raises;
other values are not iterable. -/
def iterSteps (d : Int) : Json → Except String Json
  | .jarr xs => (stepsMapM d xs).map .jarr
  | .jobj .mnil => .ok (.jobj .mnil)
  | .jobj (.mcons _ _ _) => .error strIdxErrMsg
  | .jstr s => if s = "" then .ok (.jstr s) else .error strIdxErrMsg
  | j => .error (sQuote ++ typeName j ++ sQuote ++ " object is not iterable")

/-- `'sliders' in layout_json` (only ever evaluated on a dict in the source,
because the two preceding item assignments succeeded). -/
def hasKeyJ (j : Json) (key : String) : Bool :=
  match j with
  | .jobj fs => hasKeyF fs key
  | _ => false

/-- Source lines 77–83: set the play button's frame duration to `d` and its
transition duration to `0`, then do the same for every slider step when a
`sliders` entry is present.  A Python exception becomes `Except.error` with
the exception's message. -/
def rewriteLayout (d : Int) (j : Json) : Except String Json :=
  match updBtn (updKey "frame" (setKey "duration" (.jnum d))) j with
  | .error e => .error e
  | .ok j1 =>
    match updBtn (updKey "transition" (setKey "duration" (.jnum 0))) j1 with
    | .error e => .error e
    | .ok j2 =>
      if hasKeyJ j2 "sliders" then
        updKey "sliders" (updIdx 0 (updKey "steps" (iterSteps d))) j2
      else .ok j2

/-- JSON whitespace accepted by `json.loads` between tokens. -/
def skipJWs (l : List Char) : List Char :=
  l.dropWhile (fun c => [' ', '\t', '\n', '\r'].contains c)

/-- The JSON escape table: escape letter paired with the decoded character. -/
def escPairs : List (Char × Char) :=
  [('"', '"'), ('\\', '\\'), ('/', '/'), ('n', '\n'),
   ('t', '\t'), ('r', '\r'), ('b', '\x08'), ('f', '\x0c')]

/-- Decode one JSON escape character. -/
def escChar (e : Char) : Option Char :=
  (escPairs.find? (fun p => p.1 == e)).map (fun p => p.2)

/-- Body of a JSON string literal, after the opening quote (`\uXXXX` escapes
are outside the model and fail to parse; raw control characters are
rejected as in strict `json.loads`). -/
def parseStrTail : List Char → Option (List Char × List Char)
  | [] => none
  | '\\' :: [] => none
  | '\\' :: e :: rest =>
    match escChar e with
    | some c => (parseStrTail rest).map (fun p => (c :: p.1, p.2))
    | none => none
  | c :: rest =>
    if c = '"' then some ([], rest)
    else if c.toNat < 32 then none
    else (parseStrTail rest).map (fun p => (c :: p.1, p.2))

def digitsToNat (ds : List Char) : Nat :=
  ds.foldl (fun acc c => 10 * acc + (c.toNat - 48)) 0

/-- A JSON integer literal: optional minus sign, digits without a leading
zero, not followed by a fraction or exponent (floats are outside the model). -/
def parseNum (l : List Char) : Option (Json × List Char) :=
  let neg := match l with | '-' :: _ => true | _ => false
  let l1 := if neg then l.drop 1 else l
  let ds := l1.takeWhile Char.isDigit
  if ds.length = 0 then none
  else if 1 < ds.length ∧ ds.headD '0' = '0' then none
  else
    match l1.drop ds.length with
    | '.' :: _ => none
    | 'e' :: _ => none
    | 'E' :: _ => none
    | rest =>
      let n : Int := Int.ofNat (digitsToNat ds)
      some (.jnum (if neg then -n else n), rest)

def snocJ : JList → Json → JList
  | .jnil, v => .jcons v .jnil
  | .jcons x tl, v => .jcons x (snocJ tl v)

mutual
def parseVal : Nat → List Char → Option (Json × List Char)
  | 0, _ => none
  | fu+1, l0 =>
    match skipJWs l0 with
    | '{' :: r =>
      (match skipJWs r with
       | '}' :: r2 => some (.jobj .mnil, r2)
       | _ => parseMembers fu r .mnil)
    | '[' :: r =>
      (match skipJWs r with
       | ']' :: r2 => some (.jarr .jnil, r2)
       | _ => parseItems fu r .jnil)
    | '"' :: r => (parseStrTail r).map (fun p => (.jstr (String.mk p.1), p.2))
    | 't' :: r => if List.isPrefixOf "rue".toList r then some (.jbool true, r.drop 3) else none
    | 'f' :: r => if List.isPrefixOf "alse".toList r then some (.jbool false, r.drop 4) else none
    | 'n' :: r => if List.isPrefixOf "ull".toList r then some (.jnull, r.drop 3) else none
    | l => parseNum l
def parseMembers : Nat → List Char → JMembers → Option (Json × List Char)
  | 0, _, _ => none
  | fu+1, l, acc =>
    match skipJWs l with
    | '"' :: r =>
      (match parseStrTail r with
       | some (kcs, r2) =>
         (match skipJWs r2 with
          | ':' :: r3 =>
            (match parseVal fu r3 with
             | some (v, r4) =>
               (match skipJWs r4 with
                | ',' :: r5 => parseMembers fu r5 (setKeyF acc (String.mk kcs) v)
                | '}' :: r5 => some (.jobj (setKeyF acc (String.mk kcs) v), r5)
                | _ => none)
             | none => none)
          | _ => none)
       | none => none)
    | _ => none
def parseItems : Nat → List Char → JList → Option (Json × List Char)
  | 0, _, _ => none
  | fu+1, l, acc =>
    match parseVal fu l with
    | some (v, r) =>
      (match skipJWs r with
       | ',' :: r2 => parseItems fu r2 (snocJ acc v)
       | ']' :: r2 => some (.jarr (snocJ acc v), r2)
       | _ => none)
    | none => none
end

/-- `json.loads`: parse a complete document, allowing trailing whitespace. -/
def jsonParse (s : String) : Option Json :=
  let l := s.toList
  match parseVal (2 * l.length + 4) l with
  | some (j, rest) => if skipJWs rest = [] then some j else none
  | none => none

def hexDigit (n : Nat) : Char :=
  if n < 10 then Char.ofNat (48 + n) else Char.ofNat (87 + n)

def uEsc (n : Nat) : List Char :=
  ['\\', 'u', hexDigit (n / 4096 % 16), hexDigit (n / 256 % 16),
   hexDigit (n / 16 % 16), hexDigit (n % 16)]

/-- `json.dumps` string escaping (`ensure_ascii`; characters beyond the basic
plane are outside the model). -/
def escOut (c : Char) : List Char :=
  if c = '"' then ['\\', '"']
  else if c = '\\' then ['\\', '\\']
  else if c = '\n' then ['\\', 'n']
  else if c = '\r' then ['\\', 'r']
  else if c = '\t' then ['\\', 't']
  else if c = '\x08' then ['\\', 'b']
  else if c = '\x0c' then ['\\', 'f']
  else if c.toNat < 32 || 126 < c.toNat then uEsc c.toNat
  else [c]

def escStr (s : String) : String :=
  String.mk (s.toList.map escOut).flatten

def natDigitsR : Nat → Nat → List Char
  | 0, _ => []
  | fu+1, n =>
    if n < 10 then [Char.ofNat (48 + n)]
    else natDigitsR fu (n / 10) ++ [Char.ofNat (48 + n % 10)]

def natRepr (n : Nat) : String := String.mk (natDigitsR (n + 1) n)

def intRepr (i : Int) : String :=
  if i < 0 then "-" ++ natRepr i.natAbs else natRepr i.toNat

/-!
`json.dumps` with its default separators (`", "` between items, `": "` after
keys, insertion order preserved).
-/

mutual
def dumpsV : Json → String
  | .jnull => "null"
  | .jbool b => if b then "true" else "false"
  | .jnum n => intRepr n
  | .jstr s => "\"" ++ escStr s ++ "\""
  | .jarr xs => "[" ++ dumpsL xs ++ "]"
  | .jobj fs => "\x7b" ++ dumpsM fs ++ "\x7d"
def dumpsL : JList → String
  | .jnil => ""
  | .jcons x .jnil => dumpsV x
  | .jcons x (.jcons y tl) => dumpsV x ++ ", " ++ dumpsL (.jcons y tl)
def dumpsM : JMembers → String
  | .mnil => ""
  | .mcons k v .mnil => "\"" ++ escStr k ++ "\": " ++ dumpsV v
  | .mcons k v (.mcons k2 v2 tl) =>
    "\"" ++ escStr k ++ "\": " ++ dumpsV v ++ ", " ++ dumpsM (.mcons k2 v2 tl)
end

/-- The animation-speed logic of source lines 67–87 on the loaded document:
if the gate pattern `Plotly\.newPlot\((.*)\);` matches, try to isolate the
layout object; on isolation failure or a JSON parse failure the text is
returned unchanged (silent skip); when the duration rewrite succeeds, every
occurrence of the isolated layout string is replaced by the re-serialized
object (`str.replace`); a rewrite exception propagates. -/
def animStep (html : String) (d : Int) : Except String String :=
  if hasNewPlotCall html then
    match extractLayout html with
    | none => .ok html
    | some ls =>
      match jsonParse ls with
      | none => .ok html
      | some j =>
        match rewriteLayout d j with
        | .error e => .error e
        | .ok j' => .ok (replaceAllS html ls (dumpsV j'))
  else .ok html

/-- `max_width_css` of source line 95 (Python truthiness: a configured width
of `0` also falls back to `100%`). -/
def maxWidthCss (width : Option Nat) : String :=
  match width with
  | some w =>
    if w = 0 then "max-width: 100% !important;"
    else "max-width: " ++ natRepr w ++ "px !important;"
  | none => "max-width: 100% !important;"

/-- The injected style block of source lines 98–122, byte for byte. -/
def cssInjection (height : Nat) (width : Option Nat) : String :=
  "\n            <style>\n                html, body \x7b\n                    height: 100%;\n                    width: 100%;\n                    margin: 0;\n                    padding: 0;\n                    overflow: hidden;\n                \x7d\n                /* Force the container div to fill the height */\n                .main-svg, .plotly-graph-div \x7b\n                    height: 100% !important;\n                    width: 100% !important;\n                    max-height: "
  ++ natRepr height
  ++ "px !important;\n                    "
  ++ maxWidthCss width
  ++ "\n                \x7d\n                /* Force the SVG to fill the height */\n                svg \x7b\n                    height: auto !important;\n                    width: auto !important;\n                    max-height: 100% !important;\n                    max-width: 100% !important;\n                \x7d\n            </style>\n            "

/-- Source lines 125–128: inject the style block before every `</head>`
(Python `str.replace` replaces all occurrences), or prepend it when the
document has no closing head marker. -/
def injectCss (html : String) (height : Nat) (width : Option Nat) : String :=
  if containsStr html "</head>" then
    replaceAllS html "</head>" (cssInjection height width ++ "</head>")
  else cssInjection height width ++ html

/-- `display_html_file` (source lines 34–134). -/
def display_html_file (fs : FileSys) (file_path : String) (height : Nat)
    (width : Option Nat) (scrolling : Bool) (animation_duration : Int) : Outcome :=
  match resolvePath fs file_path with
  | none => .warning ("⚠️ Chart not found: `" ++ basename file_path ++ "`")
  | some p =>
    match fsRead fs p with
    | .error e => .errorMsg ("Error reading file: " ++ e)
    | .ok html_content =>
      match (if containsStr p "animated"
             then animStep html_content animation_duration
             else .ok html_content) with
      | .error e => .errorMsg ("Error reading file: " ++ e)
      | .ok h2 =>
        .rendered (injectCss (stripSvgWidth (stripSvgHeight h2)) height width)
          height width scrolling

/-- The regex cleanup of source lines 165–170, in source order. -/
def mapClean (s : String) : String :=
  stripSvgWidth (stripSvgHeight (stripPxWidth (stripPxHeight s)))

/-- The wrapper document of source lines 175–208, byte for byte. -/
def mapWrap (html_fragment : String) (height : Nat) (width : Option Nat) : String :=
  "\n        <!DOCTYPE html>\n        <html>\n        <head>\n            <meta charset=\"utf-8\">\n            <style>\n                html, body \x7b\n                    height: 100%;\n                    width: 100%;\n                    margin: 0;\n                    padding: 0;\n                    overflow: hidden;\n                \x7d\n                /* Force the container div to fill the height, capped at the iframe height */\n                .main-svg, .plotly-graph-div \x7b\n                    height: 100% !important;\n                    width: 100% !important;\n                    max-height: "
  ++ natRepr height
  ++ "px !important;\n                    "
  ++ maxWidthCss width
  ++ "\n                \x7d\n                /* Ensure SVGs inside scale correctly */\n                svg \x7b\n                    height: auto !important;\n                    width: auto !important;\n                    max-height: 100% !important;\n                    max-width: 100% !important;\n                \x7d\n            </style>\n        </head>\n        <body>\n            "
  ++ html_fragment
  ++ "\n        </body>\n        </html>\n        "

/-- `display_html_map` (source lines 136–215). -/
def display_html_map (fs : FileSys) (file_path : String) (height : Nat)
    (width : Option Nat) : Outcome :=
  match resolveMapPath fs file_path with
  | none => .warning ("⚠️ Map not found: `" ++ basename file_path ++ "`")
  | some p =>
    match fsRead fs p with
    | .error e => .errorMsg ("Error reading map file: " ++ e)
    | .ok frag => .rendered (mapWrap (mapClean frag) height width) height width false

/-- Read-only lookup in an object. -/
def jGet? (j : Json) (k : String) : Option Json :=
  match j with
  | .jobj fs => lookupF fs k
  | _ => none

/-- Read-only indexing in an array. -/
def jAt? (j : Json) (i : Nat) : Option Json :=
  match j with
  | .jarr xs => getJ xs i
  | _ => none

/-- The play button's second argument object,
`layout["updatemenus"][0]["buttons"][0]["args"][1]`. -/
def buttonArgs1? (j : Json) : Option Json :=
  (((((jGet? j "updatemenus").bind (fun x => jAt? x 0)).bind
    (fun x => jGet? x "buttons")).bind (fun x => jAt? x 0)).bind
    (fun x => jGet? x "args")).bind (fun x => jAt? x 1)

def frameDur? (x : Json) : Option Json :=
  (jGet? x "frame").bind (fun y => jGet? y "duration")

def transDur? (x : Json) : Option Json :=
  (jGet? x "transition").bind (fun y => jGet? y "duration")

def stepArgs1? (st : Json) : Option Json :=
  (jGet? st "args").bind (fun x => jAt? x 1)

/-- The slider-steps value `layout["sliders"][0]["steps"]`. -/
def sliderStepsRaw? (j : Json) : Option Json :=
  ((jGet? j "sliders").bind (fun x => jAt? x 0)).bind (fun x => jGet? x "steps")

/-- The slider steps `layout["sliders"][0]["steps"]` of a layout, as a list
(empty when absent or not a list). -/
def sliderStepsOf (j : Json) : List Json :=
  match sliderStepsRaw? j with
  | some (.jarr xs) => xs.toList
  | _ => []

/-- Structural induction for `JMembers` (the `induction` tactic cannot use the
multi-motive recursor of the mutual inductive directly). -/
theorem membersInduction (P : JMembers → Prop) (mnil : P .mnil)
    (mcons : ∀ k v tl, P tl → P (.mcons k v tl)) : ∀ fs, P fs
  | .mnil => mnil
  | .mcons k v tl => mcons k v tl (membersInduction P mnil mcons tl)

/-- Structural induction for `JList`. -/
theorem jlistInduction (P : JList → Prop) (jnil : P .jnil)
    (jcons : ∀ x tl, P tl → P (.jcons x tl)) : ∀ xs, P xs
  | .jnil => jnil
  | .jcons x tl => jcons x tl (jlistInduction P jnil jcons tl)

theorem lookupF_replaceF_self (fs : JMembers) (k : String) (v nv : Json)
    (h : lookupF fs k = some v) : lookupF (replaceF fs k nv) k = some nv := by
  induction fs using membersInduction with
  | mnil => simp [lookupF] at h
  | mcons k0 v0 tl ih =>
    by_cases hk : k0 = k
    · simp [lookupF, replaceF, hk]
    · simp [lookupF, replaceF, hk] at h ⊢
      exact ih h

theorem lookupF_replaceF_ne (fs : JMembers) (k k' : String) (nv : Json)
    (h : k' ≠ k) : lookupF (replaceF fs k nv) k' = lookupF fs k' := by
  induction fs using membersInduction with
  | mnil => simp [replaceF]
  | mcons k0 v0 tl ih =>
    by_cases hk : k0 = k
    · subst hk
      have hne : k0 ≠ k' := fun hh => h hh.symm
      simp [replaceF, lookupF, hne]
    · by_cases hk' : k0 = k' <;> simp [lookupF, replaceF, hk, hk', ih, h]

theorem replaceF_self_id (fs : JMembers) (k : String) (v : Json)
    (h : lookupF fs k = some v) : replaceF fs k v = fs := by
  induction fs using membersInduction with
  | mnil => simp [replaceF]
  | mcons k0 v0 tl ih =>
    by_cases hk : k0 = k
    · subst hk
      simp [lookupF] at h
      simp [replaceF, h]
    · simp [lookupF, hk] at h
      simp [replaceF, hk, ih h]

theorem lookupF_appendF_self (fs : JMembers) (k : String) (v : Json)
    (h : lookupF fs k = none) : lookupF (appendF fs k v) k = some v := by
  induction fs using membersInduction with
  | mnil => simp [appendF, lookupF]
  | mcons k0 v0 tl ih =>
    by_cases hk : k0 = k
    · simp [lookupF, hk] at h
    · simp [lookupF, hk] at h
      simp [appendF, lookupF, hk, ih h]

theorem lookupF_appendF_ne (fs : JMembers) (k k' : String) (v : Json)
    (h : k' ≠ k) : lookupF (appendF fs k v) k' = lookupF fs k' := by
  induction fs using membersInduction with
  | mnil =>
    have hne : k ≠ k' := fun hh => h hh.symm
    simp [appendF, lookupF, hne]
  | mcons k0 v0 tl ih =>
    by_cases hk' : k0 = k' <;> simp [appendF, lookupF, hk', ih]

theorem lookupF_setKeyF_self (fs : JMembers) (k : String) (v : Json) :
    lookupF (setKeyF fs k v) k = some v := by
  unfold setKeyF
  cases h : lookupF fs k with
  | some w => simp [h, lookupF_replaceF_self fs k w v h]
  | none => simp [h, lookupF_appendF_self fs k v h]

theorem lookupF_setKeyF_ne (fs : JMembers) (k k' : String) (v : Json)
    (h : k' ≠ k) : lookupF (setKeyF fs k v) k' = lookupF fs k' := by
  unfold setKeyF
  cases hg : lookupF fs k with
  | some w => simp [lookupF_replaceF_ne fs k k' v h]
  | none => simp [lookupF_appendF_ne fs k k' v h]

theorem setKeyF_self_id (fs : JMembers) (k : String) (v : Json)
    (h : lookupF fs k = some v) : setKeyF fs k v = fs := by
  unfold setKeyF
  simp [h, replaceF_self_id fs k v h]

theorem getJ_setJ_self (xs : JList) (i : Nat) (v nv : Json)
    (h : getJ xs i = some v) : getJ (setJ xs i nv) i = some nv := by
  induction xs using jlistInduction generalizing i with
  | jnil => simp [getJ] at h
  | jcons x tl ih =>
    cases i with
    | zero => simp [getJ, setJ]
    | succ n =>
      simp [getJ] at h
      simp [getJ, setJ, ih n h]

theorem setJ_self_id (xs : JList) (i : Nat) (v : Json)
    (h : getJ xs i = some v) : setJ xs i v = xs := by
  induction xs using jlistInduction generalizing i with
  | jnil => simp [setJ]
  | jcons x tl ih =>
    cases i with
    | zero =>
      simp [getJ] at h
      simp [setJ, h]
    | succ n =>
      simp [getJ] at h
      simp [setJ, ih n h]

theorem hasKeyJ_eq (j : Json) (k : String) : hasKeyJ j k = (jGet? j k).isSome := by
  cases j <;> simp [hasKeyJ, jGet?, hasKeyF]

theorem updKey_ok_iff (key : String) (f : Json → Except String Json) (j j' : Json) :
    updKey key f j = .ok j' ↔
    ∃ fs v v', j = .jobj fs ∧ lookupF fs key = some v ∧ f v = .ok v' ∧
      j' = .jobj (replaceF fs key v') := by
  cases j with
  | jobj fs =>
    cases h : lookupF fs key with
    | none => simp [updKey, h]
    | some v =>
      cases hf : f v with
      | error e => simp [updKey, h, hf, Except.map]
      | ok v' => simp [updKey, h, hf, Except.map, eq_comm]
  | jarr xs => simp [updKey]
  | jstr s => simp [updKey]
  | jnull => simp [updKey]
  | jbool b => simp [updKey]
  | jnum n => simp [updKey]

theorem updIdx_ok_iff (i : Nat) (f : Json → Except String Json) (j j' : Json) :
    updIdx i f j = .ok j' ↔
    ∃ xs v v', j = .jarr xs ∧ getJ xs i = some v ∧ f v = .ok v' ∧
      j' = .jarr (setJ xs i v') := by
  cases j with
  | jarr xs =>
    cases h : getJ xs i with
    | none => simp [updIdx, h]
    | some v =>
      cases hf : f v with
      | error e => simp [updIdx, h, hf, Except.map]
      | ok v' => simp [updIdx, h, hf, Except.map, eq_comm]
  | jstr s =>
    cases h : s.data[i]? with
    | none => simp [updIdx, h]
    | some c =>
      cases hf : f (.jstr (String.singleton c)) with
      | error e => simp [updIdx, h, hf, Except.bind]
      | ok v' => simp [updIdx, h, hf, Except.bind]
  | jobj fs => simp [updIdx]
  | jnull => simp [updIdx]
  | jbool b => simp [updIdx]
  | jnum n => simp [updIdx]

theorem setKey_ok_iff (key : String) (v : Json) (j j' : Json) :
    setKey key v j = .ok j' ↔ ∃ fs, j = .jobj fs ∧ j' = .jobj (setKeyF fs key v) := by
  cases j <;> simp [setKey, eq_comm]

theorem updKey_id (key : String) (f : Json → Except String Json) (fs : JMembers)
    (v : Json) (h1 : lookupF fs key = some v) (h2 : f v = .ok v) :
    updKey key f (.jobj fs) = .ok (.jobj fs) := by
  simp [updKey, h1, h2, Except.map, replaceF_self_id fs key v h1]

theorem updIdx_id (i : Nat) (f : Json → Except String Json) (xs : JList)
    (v : Json) (h1 : getJ xs i = some v) (h2 : f v = .ok v) :
    updIdx i f (.jarr xs) = .ok (.jarr xs) := by
  simp [updIdx, h1, h2, Except.map, setJ_self_id xs i v h1]

theorem jGet?_some_iff (j : Json) (k : String) (v : Json) :
    jGet? j k = some v ↔ ∃ fs, j = .jobj fs ∧ lookupF fs k = some v := by
  cases j <;> simp [jGet?]

theorem jAt?_some_iff (j : Json) (i : Nat) (v : Json) :
    jAt? j i = some v ↔ ∃ xs, j = .jarr xs ∧ getJ xs i = some v := by
  cases j <;> simp [jAt?]

/-- Decomposition of a successful play-button path update: the args object is
read, mutated by `g`, and stored back; every other top-level key of the
layout is untouched. -/
theorem updBtn_ok (g : Json → Except String Json) (j j' : Json)
    (h : updBtn g j = .ok j') :
    ∃ a a', buttonArgs1? j = some a ∧ g a = .ok a' ∧ buttonArgs1? j' = some a' ∧
      (∀ k, k ≠ "updatemenus" → jGet? j' k = jGet? j k) := by
  unfold updBtn at h
  obtain ⟨fs, um, um', hj, hl1, h2, hj'⟩ := (updKey_ok_iff _ _ _ _).mp h
  obtain ⟨xs, m0, m0', hum, hg1, h3, hum'⟩ := (updIdx_ok_iff _ _ _ _).mp h2
  obtain ⟨bm, bts, bts', hm0, hl2, h4, hm0'⟩ := (updKey_ok_iff _ _ _ _).mp h3
  obtain ⟨bxs, b0, b0', hbts, hg2, h5, hbts'⟩ := (updIdx_ok_iff _ _ _ _).mp h4
  obtain ⟨am, args, args', hb0, hl3, h6, hb0'⟩ := (updKey_ok_iff _ _ _ _).mp h5
  obtain ⟨axs, a, a', hargs, hg3, h7, hargs'⟩ := (updIdx_ok_iff _ _ _ _).mp h6
  subst hj hj' hum hum' hm0 hm0' hbts hbts' hb0 hb0' hargs hargs'
  refine ⟨a, a', ?_, h7, ?_, ?_⟩
  · simp [buttonArgs1?, jGet?, jAt?, Option.bind, hl1, hg1, hl2, hg2, hl3, hg3]
  · simp [buttonArgs1?, jGet?, jAt?, Option.bind,
      lookupF_replaceF_self fs "updatemenus" _ _ hl1,
      getJ_setJ_self xs 0 _ _ hg1,
      lookupF_replaceF_self bm "buttons" _ _ hl2,
      getJ_setJ_self bxs 0 _ _ hg2,
      lookupF_replaceF_self am "args" _ _ hl3,
      getJ_setJ_self axs 1 _ _ hg3]
  · intro k hk
    simp [jGet?, lookupF_replaceF_ne fs "updatemenus" k _ hk]

/-- Decomposition of a successful slider-step args update (`step['args'][1]`). -/
theorem updStepArg_ok (g : Json → Except String Json) (st st' : Json)
    (h : updStepArg g st = .ok st') :
    ∃ a a', stepArgs1? st = some a ∧ g a = .ok a' ∧ stepArgs1? st' = some a' := by
  unfold updStepArg at h
  obtain ⟨sm, args, args', hst, hl1, h2, hst'⟩ := (updKey_ok_iff _ _ _ _).mp h
  obtain ⟨axs, a, a', hargs, hg1, h3, hargs'⟩ := (updIdx_ok_iff _ _ _ _).mp h2
  subst hst hst' hargs hargs'
  refine ⟨a, a', ?_, h3, ?_⟩
  · simp [stepArgs1?, jGet?, jAt?, Option.bind, hl1, hg1]
  · simp [stepArgs1?, jGet?, jAt?, Option.bind,
      lookupF_replaceF_self sm "args" _ _ hl1,
      getJ_setJ_self axs 1 _ _ hg1]

/-- Decomposition of a successful slider path update
(`layout['sliders'][0]['steps']` mutated by `F`). -/
theorem updSliders_ok (F : Json → Except String Json) (j j' : Json)
    (h : updKey "sliders" (updIdx 0 (updKey "steps" F)) j = .ok j') :
    ∃ s s', sliderStepsRaw? j = some s ∧ F s = .ok s' ∧
      sliderStepsRaw? j' = some s' ∧
      (∀ k, k ≠ "sliders" → jGet? j' k = jGet? j k) := by
  obtain ⟨fs, sl, sl', hj, hl1, h2, hj'⟩ := (updKey_ok_iff _ _ _ _).mp h
  obtain ⟨sxs, s0, s0', hsl, hg1, h3, hsl'⟩ := (updIdx_ok_iff _ _ _ _).mp h2
  obtain ⟨sm, stv, stv', hs0, hl2, h4, hs0'⟩ := (updKey_ok_iff _ _ _ _).mp h3
  subst hj hj' hsl hsl' hs0 hs0'
  refine ⟨stv, stv', ?_, h4, ?_, ?_⟩
  · simp [sliderStepsRaw?, jGet?, jAt?, Option.bind, hl1, hg1, hl2]
  · simp [sliderStepsRaw?, jGet?, jAt?, Option.bind,
      lookupF_replaceF_self fs "sliders" _ _ hl1,
      getJ_setJ_self sxs 0 _ _ hg1,
      lookupF_replaceF_self sm "steps" _ _ hl2]
  · intro k hk
    simp [jGet?, lookupF_replaceF_ne fs "sliders" k _ hk]

theorem exceptMap_ok_iff {ε α β : Type} (f : α → β) (x : Except ε α) (b : β) :
    x.map f = .ok b ↔ ∃ a, x = .ok a ∧ f a = b := by
  cases x <;> simp [Except.map, eq_comm]

/-- Effect of the item assignment `x[k]['duration'] = v` on reads: the
`duration` entry under `k` now holds `v`, and all other keys of `x` are
untouched. -/
theorem updDur_ok (k : String) (v : Json) (a a' : Json)
    (h : updKey k (setKey "duration" v) a = .ok a') :
    (jGet? a' k).bind (fun y => jGet? y "duration") = some v ∧
    (∀ k2, k2 ≠ k → jGet? a' k2 = jGet? a k2) := by
  obtain ⟨m, fr, fr', ha, hl, hs, ha'⟩ := (updKey_ok_iff _ _ _ _).mp h
  obtain ⟨fm, hfr, hfr'⟩ := (setKey_ok_iff _ _ _ _).mp hs
  subst ha ha' hfr hfr'
  constructor
  · simp [jGet?, Option.bind, lookupF_replaceF_self m k _ _ hl, lookupF_setKeyF_self]
  · intro k2 hk2
    simp [jGet?, lookupF_replaceF_ne m k k2 _ hk2]

/-- Re-assigning a `duration` value already present is a no-op. -/
theorem updDur_id (k : String) (v a : Json)
    (h : (jGet? a k).bind (fun y => jGet? y "duration") = some v) :
    updKey k (setKey "duration" v) a = .ok a := by
  obtain ⟨fr, hfr, hdur⟩ := Option.bind_eq_some.mp h
  obtain ⟨fs, ha, hl⟩ := (jGet?_some_iff _ _ _).mp hfr
  obtain ⟨fm, hfr2, hl2⟩ := (jGet?_some_iff _ _ _).mp hdur
  subst ha hfr2
  exact updKey_id k _ fs _ hl (by simp [setKey, setKeyF_self_id fm "duration" v hl2])

/-- Re-running a button path update that reads back what it wrote is a no-op. -/
theorem updBtn_id (g : Json → Except String Json) (j a : Json)
    (h1 : buttonArgs1? j = some a) (h2 : g a = .ok a) : updBtn g j = .ok j := by
  unfold buttonArgs1? at h1
  obtain ⟨x5, h5, hx5⟩ := Option.bind_eq_some.mp h1
  obtain ⟨x4, h4, hx4⟩ := Option.bind_eq_some.mp h5
  obtain ⟨x3, h3, hx3⟩ := Option.bind_eq_some.mp h4
  obtain ⟨x2, h2b, hx2⟩ := Option.bind_eq_some.mp h3
  obtain ⟨x1, h1b, hx1⟩ := Option.bind_eq_some.mp h2b
  obtain ⟨fs, hj, hl1⟩ := (jGet?_some_iff _ _ _).mp h1b
  obtain ⟨xs, hx1e, hg1⟩ := (jAt?_some_iff _ _ _).mp hx1
  obtain ⟨bm, hx2e, hl2⟩ := (jGet?_some_iff _ _ _).mp hx2
  obtain ⟨bxs, hx3e, hg2⟩ := (jAt?_some_iff _ _ _).mp hx3
  obtain ⟨am, hx4e, hl3⟩ := (jGet?_some_iff _ _ _).mp hx4
  obtain ⟨axs, hx5e, hg3⟩ := (jAt?_some_iff _ _ _).mp hx5
  subst hj hx1e hx2e hx3e hx4e hx5e
  unfold updBtn
  exact updKey_id _ _ fs _ hl1 (updIdx_id _ _ xs _ hg1 (updKey_id _ _ bm _ hl2
    (updIdx_id _ _ bxs _ hg2 (updKey_id _ _ am _ hl3 (updIdx_id _ _ axs _ hg3 h2)))))

theorem updStepArg_id (g : Json → Except String Json) (st a : Json)
    (h1 : stepArgs1? st = some a) (h2 : g a = .ok a) : updStepArg g st = .ok st := by
  unfold stepArgs1? at h1
  obtain ⟨x1, h1b, hx1⟩ := Option.bind_eq_some.mp h1
  obtain ⟨sm, hst, hl1⟩ := (jGet?_some_iff _ _ _).mp h1b
  obtain ⟨axs, hx1e, hg1⟩ := (jAt?_some_iff _ _ _).mp hx1
  subst hst hx1e
  unfold updStepArg
  exact updKey_id _ _ sm _ hl1 (updIdx_id _ _ axs _ hg1 h2)

theorem updSliders_id (F : Json → Except String Json) (j s : Json)
    (h1 : sliderStepsRaw? j = some s) (h2 : F s = .ok s) :
    updKey "sliders" (updIdx 0 (updKey "steps" F)) j = .ok j := by
  unfold sliderStepsRaw? at h1
  obtain ⟨x2, h2b, hx2⟩ := Option.bind_eq_some.mp h1
  obtain ⟨x1, h1b, hx1⟩ := Option.bind_eq_some.mp h2b
  obtain ⟨fs, hj, hl1⟩ := (jGet?_some_iff _ _ _).mp h1b
  obtain ⟨sxs, hx1e, hg1⟩ := (jAt?_some_iff _ _ _).mp hx1
  obtain ⟨sm, hx2e, hl2⟩ := (jGet?_some_iff _ _ _).mp hx2
  subst hj hx1e hx2e
  exact updKey_id _ _ fs _ hl1 (updIdx_id _ _ sxs _ hg1 (updKey_id _ _ sm _ hl2 h2))

/-- After a successful per-step mutation, the step's args carry frame
duration `d` and transition duration `0`. -/
theorem stepUpd_ok (d : Int) (st st' : Json) (h : stepUpd d st = .ok st') :
    stepArgs1? st' ≠ none ∧
    (stepArgs1? st').bind frameDur? = some (.jnum d) ∧
    (stepArgs1? st').bind transDur? = some (.jnum 0) := by
  unfold stepUpd at h
  cases h1 : updStepArg (updKey "frame" (setKey "duration" (.jnum d))) st with
  | error e => rw [h1] at h; simp at h
  | ok s1 =>
    rw [h1] at h
    obtain ⟨a, a', ha, hg, ha'⟩ := updStepArg_ok _ _ _ h1
    obtain ⟨b, b', hb, hgb, hb'⟩ := updStepArg_ok _ _ _ h
    have hba : b = a' := by rw [hb] at ha'; exact Option.some.inj ha'
    subst hba
    have hf := updDur_ok "frame" (.jnum d) a b hg
    have ht := updDur_ok "transition" (.jnum 0) b b' hgb
    refine ⟨by simp [hb'], ?_, ?_⟩
    · rw [hb']
      show frameDur? b' = some (.jnum d)
      unfold frameDur?
      rw [ht.2 "frame" (by decide)]
      exact hf.1
    · rw [hb']
      show transDur? b' = some (.jnum 0)
      exact ht.1

/-- Re-running a per-step mutation on its own output is a no-op. -/
theorem stepUpd_idem (d : Int) (st st' : Json) (h : stepUpd d st = .ok st') :
    stepUpd d st' = .ok st' := by
  unfold stepUpd at h ⊢
  cases h1 : updStepArg (updKey "frame" (setKey "duration" (.jnum d))) st with
  | error e => rw [h1] at h; simp at h
  | ok s1 =>
    rw [h1] at h
    obtain ⟨a, a', ha, hg, ha'⟩ := updStepArg_ok _ _ _ h1
    obtain ⟨b, b', hb, hgb, hb'⟩ := updStepArg_ok _ _ _ h
    have hba : b = a' := by rw [hb] at ha'; exact Option.some.inj ha'
    subst hba
    have hf := updDur_ok "frame" (.jnum d) a b hg
    have ht := updDur_ok "transition" (.jnum 0) b b' hgb
    have hfd : (jGet? b' "frame").bind (fun y => jGet? y "duration") = some (.jnum d) := by
      rw [ht.2 "frame" (by decide)]; exact hf.1
    have h1' : updStepArg (updKey "frame" (setKey "duration" (.jnum d))) st' = .ok st' :=
      updStepArg_id _ _ _ hb' (updDur_id "frame" (.jnum d) b' hfd)
    rw [h1']
    exact updStepArg_id _ _ _ hb' (updDur_id "transition" (.jnum 0) b' ht.1)

theorem stepsMapM_ok_mem (d : Int) : ∀ (xs xs' : JList),
    stepsMapM d xs = .ok xs' →
    ∀ st' ∈ JList.toList xs', ∃ st, stepUpd d st = .ok st' := by
  intro xs
  induction xs using jlistInduction with
  | jnil =>
    intro xs' h st' hst'
    simp [stepsMapM] at h
    subst h
    simp [JList.toList] at hst'
  | jcons x tl ih =>
    intro xs' h st' hst'
    unfold stepsMapM at h
    cases h1 : stepUpd d x with
    | error e => rw [h1] at h; simp at h
    | ok x' =>
      rw [h1] at h
      cases h2 : stepsMapM d tl with
      | error e => rw [h2] at h; simp at h
      | ok tl' =>
        rw [h2] at h
        simp at h
        subst h
        simp [JList.toList] at hst'
        cases hst' with
        | inl he => exact ⟨x, he ▸ h1⟩
        | inr hm => exact ih tl' h2 st' hm

theorem stepsMapM_idem (d : Int) : ∀ (xs xs' : JList),
    stepsMapM d xs = .ok xs' → stepsMapM d xs' = .ok xs' := by
  intro xs
  induction xs using jlistInduction with
  | jnil =>
    intro xs' h
    simp [stepsMapM] at h
    subst h
    simp [stepsMapM]
  | jcons x tl ih =>
    intro xs' h
    unfold stepsMapM at h
    cases h1 : stepUpd d x with
    | error e => rw [h1] at h; simp at h
    | ok x' =>
      rw [h1] at h
      cases h2 : stepsMapM d tl with
      | error e => rw [h2] at h; simp at h
      | ok tl' =>
        rw [h2] at h
        simp at h
        subst h
        unfold stepsMapM
        rw [stepUpd_idem d x x' h1, ih tl' h2]

theorem iterSteps_idem (d : Int) (s s' : Json) (h : iterSteps d s = .ok s') :
    iterSteps d s' = .ok s' := by
  cases s with
  | jarr xs =>
    simp only [iterSteps] at h
    obtain ⟨xs', hmap, hs'⟩ := (exceptMap_ok_iff _ _ _).mp h
    subst hs'
    simp only [iterSteps]
    rw [stepsMapM_idem d xs xs' hmap]
    simp [Except.map]
  | jobj fs =>
    cases fs with
    | mnil => simp [iterSteps] at h; subst h; simp [iterSteps]
    | mcons k v tl => simp [iterSteps] at h
  | jstr s0 =>
    simp only [iterSteps] at h
    by_cases h0 : s0 = ""
    · rw [if_pos h0] at h
      simp at h
      subst h
      simp [iterSteps, h0]
    · rw [if_neg h0] at h
      simp at h
  | jnull => simp [iterSteps] at h
  | jbool b => simp [iterSteps] at h
  | jnum n => simp [iterSteps] at h

/-- After a successful animation rewrite with frame duration `d`, the play
button's args carry frame duration `d` and transition duration `0`, and every
step of the slider control carries the same pair. -/
theorem rewriteLayout_ok_durations (d : Int) (j j' : Json)
    (h : rewriteLayout d j = .ok j') :
    (buttonArgs1? j').bind frameDur? = some (.jnum d) ∧
    (buttonArgs1? j').bind transDur? = some (.jnum 0) ∧
    ∀ st ∈ sliderStepsOf j',
      (stepArgs1? st).bind frameDur? = some (.jnum d) ∧
      (stepArgs1? st).bind transDur? = some (.jnum 0) := by
  unfold rewriteLayout at h
  split at h
  next e h1 => simp at h
  next j1 h1 =>
    split at h
    next e h2 => simp at h
    next j2 h2 =>
      obtain ⟨a, a', ha, hg, ha', hpres1⟩ := updBtn_ok _ _ _ h1
      obtain ⟨b, b', hb, hgb, hb', hpres2⟩ := updBtn_ok _ _ _ h2
      have hba : b = a' := by rw [hb] at ha'; exact Option.some.inj ha'
      subst hba
      have hf := updDur_ok "frame" (.jnum d) a b hg
      have ht := updDur_ok "transition" (.jnum 0) b b' hgb
      have hfd2 : (buttonArgs1? j2).bind frameDur? = some (.jnum d) := by
        rw [hb']
        show frameDur? b' = some (.jnum d)
        unfold frameDur?
        rw [ht.2 "frame" (by decide)]
        exact hf.1
      have htd2 : (buttonArgs1? j2).bind transDur? = some (.jnum 0) := by
        rw [hb']
        show transDur? b' = some (.jnum 0)
        exact ht.1
      by_cases hsk : hasKeyJ j2 "sliders"
      · rw [if_pos hsk] at h
        obtain ⟨s, s', hsr, hF, hsr', hpres3⟩ := updSliders_ok _ _ _ h
        have hbtnpres : buttonArgs1? j' = buttonArgs1? j2 := by
          unfold buttonArgs1?
          rw [hpres3 "updatemenus" (by decide)]
        refine ⟨by rw [hbtnpres]; exact hfd2, by rw [hbtnpres]; exact htd2, ?_⟩
        intro st hst
        unfold sliderStepsOf at hst
        rw [hsr'] at hst
        cases s with
        | jarr xs =>
          simp only [iterSteps] at hF
          obtain ⟨xs', hmap, hs'⟩ := (exceptMap_ok_iff _ _ _).mp hF
          subst hs'
          simp at hst
          obtain ⟨st0, hst0⟩ := stepsMapM_ok_mem d xs xs' hmap st hst
          have := stepUpd_ok d st0 st hst0
          exact ⟨this.2.1, this.2.2⟩
        | jobj fs =>
          cases fs with
          | mnil =>
            simp only [iterSteps] at hF
            simp at hF
            subst hF
            simp at hst
          | mcons k v tl => simp only [iterSteps] at hF; simp at hF
        | jstr s0 =>
          simp only [iterSteps] at hF
          by_cases h0 : s0 = ""
          · rw [if_pos h0] at hF
            simp at hF
            subst hF
            simp at hst
          · rw [if_neg h0] at hF
            simp at hF
        | jnull => simp [iterSteps] at hF
        | jbool bb => simp [iterSteps] at hF
        | jnum n => simp [iterSteps] at hF
      · rw [if_neg hsk] at h
        have hj2 : j2 = j' := Except.ok.inj h
        subst hj2
        refine ⟨hfd2, htd2, ?_⟩
        intro st hst
        have hnone : jGet? j2 "sliders" = none := by
          rw [hasKeyJ_eq] at hsk
          exact Option.not_isSome_iff_eq_none.mp (by simpa using hsk)
        unfold sliderStepsOf sliderStepsRaw? at hst
        rw [hnone] at hst
        simp at hst

/-- Re-running the animation rewrite on its own output reproduces the output
unchanged: the durations it would set are already in place. -/
theorem rewriteLayout_idem (d : Int) (j j' : Json)
    (h : rewriteLayout d j = .ok j') : rewriteLayout d j' = .ok j' := by
  unfold rewriteLayout at h
  split at h
  next e h1 => simp at h
  next j1 h1 =>
    split at h
    next e h2 => simp at h
    next j2 h2 =>
      obtain ⟨a, a', ha, hg, ha', hpres1⟩ := updBtn_ok _ _ _ h1
      obtain ⟨b, b', hb, hgb, hb', hpres2⟩ := updBtn_ok _ _ _ h2
      have hba : b = a' := by rw [hb] at ha'; exact Option.some.inj ha'
      subst hba
      have hf := updDur_ok "frame" (.jnum d) a b hg
      have ht := updDur_ok "transition" (.jnum 0) b b' hgb
      have hfdb' : (jGet? b' "frame").bind (fun y => jGet? y "duration")
          = some (.jnum d) := by
        rw [ht.2 "frame" (by decide)]; exact hf.1
      by_cases hsk : hasKeyJ j2 "sliders"
      · rw [if_pos hsk] at h
        obtain ⟨s, s', hsr, hF, hsr', hpres3⟩ := updSliders_ok _ _ _ h
        have hbtnpres : buttonArgs1? j' = some b' := by
          unfold buttonArgs1?
          rw [hpres3 "updatemenus" (by decide)]
          exact hb'
        unfold rewriteLayout
        simp only [updBtn_id _ _ _ hbtnpres (updDur_id "frame" (.jnum d) b' hfdb')]
        simp only [updBtn_id _ _ _ hbtnpres (updDur_id "transition" (.jnum 0) b' ht.1)]
        have hsk' : hasKeyJ j' "sliders" = true := by
          rw [hasKeyJ_eq]
          unfold sliderStepsRaw? at hsr'
          obtain ⟨x2, h2b, hx2⟩ := Option.bind_eq_some.mp hsr'
          obtain ⟨x1, h1b, hx1⟩ := Option.bind_eq_some.mp h2b
          simp [h1b]
        rw [if_pos hsk']
        exact updSliders_id _ _ _ hsr' (iterSteps_idem d s s' hF)
      · rw [if_neg hsk] at h
        have hj2 : j2 = j' := Except.ok.inj h
        subst hj2
        unfold rewriteLayout
        simp only [updBtn_id _ _ _ hb' (updDur_id "frame" (.jnum d) b' hfdb')]
        simp only [updBtn_id _ _ _ hb' (updDur_id "transition" (.jnum 0) b' ht.1)]
        rw [if_neg hsk]

theorem scanF_nil (f : List Char → Option (List Char × Nat)) (n : Nat) :
    scanF f n [] = [] := by
  cases n <;> simp [scanF]

theorem scanF_fuel (f : List Char → Option (List Char × Nat)) :
    ∀ (fuel n : Nat) (l : List Char), l.length ≤ fuel → l.length ≤ n →
      scanF f fuel l = scanF f n l := by
  intro fuel
  induction fuel with
  | zero =>
    intro n l h1 _
    have hl : l = [] := List.length_eq_zero.mp (Nat.le_zero.mp h1)
    subst hl
    simp [scanF_nil]
  | succ fu ih =>
    intro n l h1 h2
    cases l with
    | nil => simp [scanF_nil]
    | cons c cs =>
      cases n with
      | zero => simp at h2
      | succ n' =>
        simp only [List.length_cons] at h1 h2
        cases hf : f (c :: cs) with
        | none =>
          simp only [scanF, hf]
          exact congrArg (c :: ·) (ih n' cs (by omega) (by omega))
        | some ek =>
          obtain ⟨e, k⟩ := ek
          simp only [scanF, hf]
          have hd : (cs.drop k).length ≤ cs.length := by
            rw [List.length_drop]; omega
          rw [ih n' (cs.drop k) (by omega) (by omega)]

/-- One step of the scanner with exact fuel. -/
theorem scanS_cons (f : List Char → Option (List Char × Nat)) (c : Char)
    (cs : List Char) :
    scanS f (c :: cs) =
      (match f (c :: cs) with
       | some (e, k) => e ++ scanS f (cs.drop k)
       | none => c :: scanS f cs) := by
  unfold scanS
  simp only [List.length_cons]
  cases hf : f (c :: cs) with
  | none => simp only [scanF, hf]
  | some ek =>
    obtain ⟨e, k⟩ := ek
    simp only [scanF, hf]
    have hd : (cs.drop k).length ≤ cs.length := by
      rw [List.length_drop]; omega
    rw [scanF_fuel f cs.length (cs.drop k).length (cs.drop k) (by omega) (by omega)]

/-- A text in which no position starts a match is left unchanged. -/
theorem scanS_noMatch (f : List Char → Option (List Char × Nat)) :
    ∀ l, anyMatch f l = false → scanS f l = l := by
  intro l
  induction l with
  | nil => intro _; simp [scanS, scanF_nil]
  | cons c cs ih =>
    intro h
    simp only [anyMatch, List.tails_cons, List.any_cons, Bool.or_eq_false_iff] at h
    have h1 : f (c :: cs) = none := by
      cases hf : f (c :: cs) with
      | none => rfl
      | some ek => rw [hf] at h; simp at h
    rw [scanS_cons, h1]
    exact congrArg (c :: ·) (ih h.2)

/-- Splitting a scan at the leftmost match: if no position inside `a` starts a
match, and at the boundary the matcher consumes exactly `m0 :: mr` emitting
`e`, the scan yields `a`, then `e`, then the scan of the remainder `b`. -/
theorem scanS_boundary (f : List Char → Option (List Char × Nat)) :
    ∀ (a : List Char) (m0 : Char) (mr b e : List Char),
    (∀ a2 ∈ a.tails, a2 ≠ [] → f (a2 ++ (m0 :: mr) ++ b) = none) →
    f ((m0 :: mr) ++ b) = some (e, mr.length) →
    scanS f (a ++ (m0 :: mr) ++ b) = a ++ e ++ scanS f b := by
  intro a
  induction a with
  | nil =>
    intro m0 mr b e _ hm
    simp only [List.nil_append, List.cons_append]
    have hm' : f (m0 :: (mr ++ b)) = some (e, mr.length) := by
      simpa using hm
    rw [scanS_cons, hm']
    simp only [List.drop_left]
  | cons c a' ih =>
    intro m0 mr b e ha hm
    have h0 : f ((c :: a') ++ (m0 :: mr) ++ b) = none := by
      refine ha (c :: a') ?_ (by simp)
      rw [List.mem_tails]
    have h0' : f (c :: (a' ++ (m0 :: mr) ++ b)) = none := by
      simpa using h0
    have hstep : scanS f (c :: (a' ++ (m0 :: mr) ++ b)) =
        c :: scanS f (a' ++ (m0 :: mr) ++ b) := by
      rw [scanS_cons, h0']
    have ha' : ∀ a2 ∈ a'.tails, a2 ≠ [] → f (a2 ++ (m0 :: mr) ++ b) = none := by
      intro a2 h2 hne
      refine ha a2 ?_ hne
      rw [List.mem_tails] at h2 ⊢
      exact h2.trans (List.suffix_cons c a')
    calc scanS f ((c :: a') ++ (m0 :: mr) ++ b)
        = c :: scanS f (a' ++ (m0 :: mr) ++ b) := by simpa using hstep
      _ = c :: (a' ++ e ++ scanS f b) := by rw [ih m0 mr b e ha' hm]
      _ = (c :: a') ++ e ++ scanS f b := by simp

theorem find?_middle {α : Type} (pred : α → Bool) :
    ∀ (pre : List α) (a : α) (post : List α),
    (∀ b ∈ pre, pred b = false) → pred a = true →
    List.find? pred (pre ++ a :: post) = some a := by
  intro pre
  induction pre with
  | nil => intro a post _ ha; simp [List.find?_cons, ha]
  | cons b pre' ih =>
    intro a post hpre ha
    have hb : pred b = false := hpre b (by simp)
    simp only [List.cons_append, List.find?_cons, hb]
    exact ih a post (fun x hx => hpre x (by simp [hx])) ha

/-- C3: for every requested filename that exists at the requested path or in
at least one candidate directory, `resolvePath` returns a path that exists on
the filesystem; for every filename absent from the requested path and from
every candidate directory it returns `none` (the not-found outcome); being a
total function it never raises; and any path it returns exists. -/
theorem c3_resolver_total (fs : FileSys) (p : String) :
    (∀ q, resolvePath fs p = some q → fsExists fs q = true) ∧
    (resolvePath fs p = none ↔
      (fsExists fs p = false ∧
       ∀ a ∈ altPaths (basename p), fsExists fs a = false)) := by
  unfold resolvePath
  by_cases he : fsExists fs p
  · simp [he]
  · simp only [he, if_false, Bool.false_eq_true]
    constructor
    · intro q hq
      exact List.find?_some hq
    · constructor
      · intro hn
        refine ⟨by trivial, ?_⟩
        intro a ha
        have := List.find?_eq_none.mp hn a ha
        simpa using this
      · intro ⟨_, hall⟩
        apply List.find?_eq_none.mpr
        intro a ha
        simp [hall a ha]

/-- C3 witness: a file present at its requested path resolves to an existing
path, and a filename absent everywhere resolves to the not-found outcome. -/
theorem c3_resolver_total_witness :
    fsExists [("/app/x.html", Except.ok "c")] "/app/x.html" = true ∧
    resolvePath [] "/nope/gone.html" = none :=
  ⟨(c3_resolver_total [("/app/x.html", Except.ok "c")] "/app/x.html").1
      "/app/x.html" (by decide),
   (c3_resolver_total [] "/nope/gone.html").2.mpr (by decide)⟩

/-- C4: the resolver checks the requested path first — when it exists it is
returned even if fallbacks also hold the filename — and otherwise probes the
fallback directories in their listed order, returning the first existing
match. -/
theorem c4_resolver_priority (fs : FileSys) (p : String) :
    (fsExists fs p = true → resolvePath fs p = some p) ∧
    (fsExists fs p = false →
      ∀ (pre post : List String) (a : String),
        altPaths (basename p) = pre ++ a :: post →
        fsExists fs a = true →
        (∀ b ∈ pre, fsExists fs b = false) →
        resolvePath fs p = some a) := by
  constructor
  · intro he
    unfold resolvePath
    simp [he]
  · intro he pre post a hsplit ha hpre
    unfold resolvePath
    simp only [he, Bool.false_eq_true, if_false]
    rw [hsplit]
    exact find?_middle _ pre a post hpre ha

/-- C4 witness: with `x.html` present both at the requested path and in the
Maps fallback, the requested (primary) path wins; with the requested path
absent and the file present only in the Maps directory, the first two
fallbacks are skipped and the Maps path is returned. -/
theorem c4_resolver_priority_witness :
    resolvePath [("/prim/x.html", Except.ok "a"), ("/app/Maps/x.html", Except.ok "b")]
      "/prim/x.html" = some "/prim/x.html" ∧
    resolvePath [("/app/Maps/x.html", Except.ok "b")] "/prim/x.html"
      = some "/app/Maps/x.html" :=
  ⟨(c4_resolver_priority
      [("/prim/x.html", Except.ok "a"), ("/app/Maps/x.html", Except.ok "b")]
      "/prim/x.html").1 (by decide),
   (c4_resolver_priority [("/app/Maps/x.html", Except.ok "b")] "/prim/x.html").2
      (by decide) ["/app/x.html", "/app/Time Series/x.html"]
      ["/app/Neighborhoods/x.html", "/app/Modelling/x.html"] "/app/Maps/x.html"
      (by decide) (by decide) (by decide)⟩

/-- C5: when the filename is absent from the requested path and from every
fallback directory, the display call short-circuits into the not-found warning
(naming only the bare filename, never the searched paths) before any read is
attempted; the outcome is never a read error and no exception escapes. -/
theorem c5_missing_asset_warning (fs : FileSys) (p : String) (h : Nat)
    (w : Option Nat) (sc : Bool) (d : Int)
    (hres : resolvePath fs p = none) :
    display_html_file fs p h w sc d =
      .warning ("⚠️ Chart not found: `" ++ basename p ++ "`") := by
  unfold display_html_file
  simp only [hres]

/-- C5 witness: requesting a file on an empty filesystem yields exactly the
warning with the bare filename. -/
theorem c5_missing_asset_warning_witness :
    display_html_file [] "/gone/missing.html" 600 none true 50 =
      .warning ("⚠️ Chart not found: `missing.html`") := by
  have := c5_missing_asset_warning [] "/gone/missing.html" 600 none true 50 (by decide)
  rw [this]
  decide

/-- C10: the map variant's fallback search probes exactly one candidate (the
`Maps` subdirectory); a map absent from the requested path and from that
single directory yields the not-found outcome even when the same filename
exists in the Time Series, Neighborhoods or Modelling directories or the
application root. -/
theorem c10_map_single_candidate (fs : FileSys) (p : String) (h : Nat)
    (w : Option Nat)
    (h1 : fsExists fs p = false)
    (h2 : fsExists fs (pjoin (pjoin CURRENT_DIR "Maps") (basename p)) = false) :
    mapAltPaths (basename p) = [pjoin (pjoin CURRENT_DIR "Maps") (basename p)] ∧
    resolveMapPath fs p = none ∧
    display_html_map fs p h w =
      .warning ("⚠️ Map not found: `" ++ basename p ++ "`") := by
  have hres : resolveMapPath fs p = none := by
    unfold resolveMapPath
    simp [h1, mapAltPaths, List.find?_cons, h2]
  refine ⟨rfl, hres, ?_⟩
  unfold display_html_map
  simp only [hres]

/-- C10 witness: `m.html` exists in the application root, Time Series,
Neighborhoods and Modelling directories — everywhere the standalone-chart
variant would look — yet the map display still reports not-found, because only
`/app/Maps` is probed. -/
theorem c10_map_single_candidate_witness :
    resolveMapPath
      [("/app/m.html", Except.ok "x"), ("/app/Time Series/m.html", Except.ok "x"),
       ("/app/Neighborhoods/m.html", Except.ok "x"), ("/app/Modelling/m.html", Except.ok "x")]
      "/elsewhere/m.html" = none ∧
    display_html_map
      [("/app/m.html", Except.ok "x"), ("/app/Time Series/m.html", Except.ok "x"),
       ("/app/Neighborhoods/m.html", Except.ok "x"), ("/app/Modelling/m.html", Except.ok "x")]
      "/elsewhere/m.html" 600 none = .warning ("⚠️ Map not found: `m.html`") := by
  have := c10_map_single_candidate
    [("/app/m.html", Except.ok "x"), ("/app/Time Series/m.html", Except.ok "x"),
     ("/app/Neighborhoods/m.html", Except.ok "x"), ("/app/Modelling/m.html", Except.ok "x")]
    "/elsewhere/m.html" 600 none (by decide) (by decide)
  refine ⟨this.2.1, ?_⟩
  rw [this.2.2]
  decide

/-- The animation-speed logic is skipped silently when the gate pattern fails,
the layout isolation fails, or the isolated text fails to parse as JSON. -/
theorem animStep_skip (html : String) (d : Int)
    (hskip : hasNewPlotCall html = false ∨ extractLayout html = none ∨
      (∃ ls, extractLayout html = some ls ∧ jsonParse ls = none)) :
    animStep html d = .ok html := by
  unfold animStep
  cases hg : hasNewPlotCall html with
  | false => simp
  | true =>
    rcases hskip with h | h | ⟨ls, h1, h2⟩
    · rw [hg] at h; exact absurd h (by simp)
    · simp [h]
    · simp [h1, h2]

/-- A successful duration rewrite substitutes the re-serialized layout for
every occurrence of the isolated layout string. -/
theorem animStep_rewrite (html ls : String) (d : Int) (j j' : Json)
    (hgate : hasNewPlotCall html = true) (hex : extractLayout html = some ls)
    (hparse : jsonParse ls = some j) (hrw : rewriteLayout d j = .ok j') :
    animStep html d = .ok (replaceAllS html ls (dumpsV j')) := by
  unfold animStep
  simp only [hgate, if_true, hex, hparse, hrw]

/-- A rewrite exception propagates out of the animation step. -/
theorem animStep_err (html ls : String) (d : Int) (j : Json) (e : String)
    (hgate : hasNewPlotCall html = true) (hex : extractLayout html = some ls)
    (hparse : jsonParse ls = some j) (hrw : rewriteLayout d j = .error e) :
    animStep html d = .error e := by
  unfold animStep
  simp only [hgate, if_true, hex, hparse, hrw]

/-- C2: for an animated input in which the expected animation-controls
structure is absent — the chart-initialization pattern does not match, or the
isolated layout fails to parse — the embed call raises nothing and returns the
document unchanged except for svg dimension stripping and style injection. -/
theorem c2_silent_skip (fs : FileSys) (p q html : String) (h : Nat)
    (w : Option Nat) (sc : Bool) (d : Int)
    (hres : resolvePath fs p = some q)
    (hread : fsRead fs q = .ok html)
    (hanim : containsStr q "animated" = true)
    (hskip : hasNewPlotCall html = false ∨ extractLayout html = none ∨
      (∃ ls, extractLayout html = some ls ∧ jsonParse ls = none)) :
    display_html_file fs p h w sc d =
      .rendered (injectCss (stripSvgWidth (stripSvgHeight html)) h w) h w sc := by
  unfold display_html_file
  simp only [hres, hread, hanim, if_true, animStep_skip html d hskip]

/-- C2 witness: an animated document with a chart-initialization call whose
layout lacks the `updatemenus` marker (the isolation pattern fails) renders
with only stripping and style injection, raising nothing. -/
theorem c2_silent_skip_witness :
    display_html_file
      [("/app/Time Series/t_animated.html",
        Except.ok "<div>Plotly.newPlot(gd, [1], \x7b\"a\": 1\x7d, \x7b\x7d);</div>")]
      "/app/Time Series/t_animated.html" 600 none true 50 =
      .rendered
        (injectCss "<div>Plotly.newPlot(gd, [1], \x7b\"a\": 1\x7d, \x7b\x7d);</div>" 600 none)
        600 none true := by
  have := c2_silent_skip
    [("/app/Time Series/t_animated.html",
      Except.ok "<div>Plotly.newPlot(gd, [1], \x7b\"a\": 1\x7d, \x7b\x7d);</div>")]
    "/app/Time Series/t_animated.html" "/app/Time Series/t_animated.html"
    "<div>Plotly.newPlot(gd, [1], \x7b\"a\": 1\x7d, \x7b\x7d);</div>" 600 none true 50
    (by decide) (by decide) (by decide) (Or.inr (Or.inl (by decide)))
  rw [this]
  have hH : stripSvgHeight "<div>Plotly.newPlot(gd, [1], \x7b\"a\": 1\x7d, \x7b\x7d);</div>"
      = "<div>Plotly.newPlot(gd, [1], \x7b\"a\": 1\x7d, \x7b\x7d);</div>" := by decide
  have hW : stripSvgWidth "<div>Plotly.newPlot(gd, [1], \x7b\"a\": 1\x7d, \x7b\x7d);</div>"
      = "<div>Plotly.newPlot(gd, [1], \x7b\"a\": 1\x7d, \x7b\x7d);</div>" := by decide
  rw [hH, hW]

/-- Filesystem of the C9 counterexample: an animated chart whose isolated
layout parses but carries an empty `updatemenus` list, so the mutation raises
`IndexError` — whose message does not name the asset. -/
def fsC9 : FileSys :=
  [("/app/Modelling/m_animated.html",
    Except.ok "Plotly.newPlot(gd, [1], \x7b\"updatemenus\": []\x7d, \x7b\x7d);")]

/-- C9 counterexample: a transform error is caught and shown, but the
user-visible message (`Error reading file: list index out of range`) does not
identify the failing asset — refuting the claim that every such message
identifies it. -/
theorem c9_counterexample :
    display_html_file fsC9 "/app/Modelling/m_animated.html" 600 none true 50 =
      .errorMsg "Error reading file: list index out of range" ∧
    containsStr "Error reading file: list index out of range" "m_animated" = false := by
  constructor
  · have h1 : resolvePath fsC9 "/app/Modelling/m_animated.html"
        = some "/app/Modelling/m_animated.html" := by decide
    have h2 : fsRead fsC9 "/app/Modelling/m_animated.html"
        = .ok "Plotly.newPlot(gd, [1], \x7b\"updatemenus\": []\x7d, \x7b\x7d);" := by decide
    have h3 : animStep "Plotly.newPlot(gd, [1], \x7b\"updatemenus\": []\x7d, \x7b\x7d);" 50
        = .error "list index out of range" := by decide
    unfold display_html_file
    simp only [h1, h2, if_true, h3]
    decide
  · decide

/-- C9 (amended): any read or transform error inside one chart's display call
is caught at the top level and converted into a non-fatal error message that
carries the exception detail prefixed with `Error reading file: ` (or
`Error reading map file: ` for the fragment variant); no exception propagates,
but the message does not necessarily identify the failing asset. -/
theorem c9_amended (fs : FileSys) (p q : String) (h : Nat) (w : Option Nat)
    (sc : Bool) (d : Int)
    (hres : resolvePath fs p = some q) :
    (∀ e, fsRead fs q = .error e →
      display_html_file fs p h w sc d =
        .errorMsg ("Error reading file: " ++ e)) ∧
    (∀ html e, fsRead fs q = .ok html → containsStr q "animated" = true →
      animStep html d = .error e →
      display_html_file fs p h w sc d =
        .errorMsg ("Error reading file: " ++ e)) ∧
    (∀ (fs2 : FileSys) (p2 q2 : String) (h2 : Nat) (w2 : Option Nat) (e : String),
      resolveMapPath fs2 p2 = some q2 → fsRead fs2 q2 = .error e →
      display_html_map fs2 p2 h2 w2 =
        .errorMsg ("Error reading map file: " ++ e)) := by
  refine ⟨?_, ?_, ?_⟩
  · intro e he
    unfold display_html_file
    simp only [hres, he]
  · intro html e hok hanim herr
    unfold display_html_file
    simp only [hres, hok, hanim, if_true, herr]
  · intro fs2 p2 q2 h2 w2 e hres2 he2
    unfold display_html_map
    simp only [hres2, he2]

/-- C9 (amended) witness: a stored read failure surfaces as the prefixed error
message. -/
theorem c9_amended_witness :
    display_html_file [("/app/r.html", Except.error "boom")] "/app/r.html"
      600 none true 50 = .errorMsg "Error reading file: boom" := by
  have := (c9_amended [("/app/r.html", Except.error "boom")] "/app/r.html"
    "/app/r.html" 600 none true 50 (by decide)).1 "boom" (by decide)
  rw [this]
  decide

/-- Filesystem of the C1 counterexample: an animated chart whose layout is
successfully isolated and parsed, but whose single `updatemenus` entry lacks a
`buttons` collection. -/
def fsC1 : FileSys :=
  [("/app/Time Series/t_animated.html",
    Except.ok "Plotly.newPlot(gd, [1], \x7b\"updatemenus\": [\x7b\x7d]\x7d, \x7b\x7d);")]

/-- C1 counterexample: the resolved path marks the input as animated, the
layout object is successfully isolated and parsed (`{"updatemenus": [{}]}`),
yet embedding with frame duration 50 produces no output at all — the duration
mutation raises `KeyError: 'buttons'`, which the top-level handler turns into
an error message.  This refutes the claim as stated, which promises output
with the configured durations for every successfully isolated and parsed
layout. -/
theorem c1_counterexample :
    extractLayout "Plotly.newPlot(gd, [1], \x7b\"updatemenus\": [\x7b\x7d]\x7d, \x7b\x7d);"
      = some "\x7b\"updatemenus\": [\x7b\x7d]\x7d" ∧
    jsonParse "\x7b\"updatemenus\": [\x7b\x7d]\x7d"
      = some (.jobj (.mcons "updatemenus" (.jarr (.jcons (.jobj .mnil) .jnil)) .mnil)) ∧
    display_html_file fsC1 "/app/Time Series/t_animated.html" 600 none true 50 =
      .errorMsg ("Error reading file: " ++ sQuote ++ "buttons" ++ sQuote) := by
  refine ⟨by decide, by decide, ?_⟩
  have h1 : resolvePath fsC1 "/app/Time Series/t_animated.html"
      = some "/app/Time Series/t_animated.html" := by decide
  have h2 : fsRead fsC1 "/app/Time Series/t_animated.html"
      = .ok "Plotly.newPlot(gd, [1], \x7b\"updatemenus\": [\x7b\x7d]\x7d, \x7b\x7d);" := by decide
  have h3 : animStep "Plotly.newPlot(gd, [1], \x7b\"updatemenus\": [\x7b\x7d]\x7d, \x7b\x7d);" 50
      = .error (sQuote ++ "buttons" ++ sQuote) := by decide
  unfold display_html_file
  simp only [h1, h2, if_true, h3]
  decide

/-- C1 (amended): for every standalone document whose resolved path marks it
as animated, whose layout object is successfully isolated and parsed, *and*
whose parsed layout actually carries the expected animation-controls structure
(so that the duration mutation succeeds), embedding with frame duration `d`
renders the document with the re-serialized layout substituted, in which the
play button's args carry frame duration `d` and transition duration `0`, and
every step of the slider control carries frame duration `d` and transition
duration `0`. -/
theorem c1_amended (fs : FileSys) (p q html ls : String) (h : Nat)
    (w : Option Nat) (sc : Bool) (d : Int) (j j' : Json)
    (hres : resolvePath fs p = some q)
    (hread : fsRead fs q = .ok html)
    (hanim : containsStr q "animated" = true)
    (hgate : hasNewPlotCall html = true)
    (hex : extractLayout html = some ls)
    (hparse : jsonParse ls = some j)
    (hrw : rewriteLayout d j = .ok j') :
    display_html_file fs p h w sc d =
      .rendered (injectCss (stripSvgWidth (stripSvgHeight
        (replaceAllS html ls (dumpsV j')))) h w) h w sc ∧
    (buttonArgs1? j').bind frameDur? = some (.jnum d) ∧
    (buttonArgs1? j').bind transDur? = some (.jnum 0) ∧
    ∀ st ∈ sliderStepsOf j',
      (stepArgs1? st).bind frameDur? = some (.jnum d) ∧
      (stepArgs1? st).bind transDur? = some (.jnum 0) := by
  refine ⟨?_, rewriteLayout_ok_durations d j j' hrw⟩
  unfold display_html_file
  simp only [hres, hread, hanim, if_true,
    animStep_rewrite html ls d j j' hgate hex hparse hrw]

/-- The layout string of the C1 (amended) witness, the spec's example: frame
durations 500 and transition durations 300 in both the play button and the
single slider step. -/
def lsC1w : String :=
  "\x7b\"updatemenus\": [\x7b\"buttons\": [\x7b\"args\": [0, \x7b\"frame\": \x7b\"duration\": 500\x7d, \"transition\": \x7b\"duration\": 300\x7d\x7d]\x7d]\x7d], \"sliders\": [\x7b\"steps\": [\x7b\"args\": [0, \x7b\"frame\": \x7b\"duration\": 500\x7d, \"transition\": \x7b\"duration\": 300\x7d\x7d]\x7d]\x7d]\x7d"

def htmlC1w : String := "Plotly.newPlot(gd, [1], " ++ lsC1w ++ ", \x7b\x7d);"

def fsC1w : FileSys := [("/app/Time Series/tr_animated.html", Except.ok htmlC1w)]

/-- The second play-button / slider-step argument object with the given frame
and transition durations. -/
def argObjC1w (f t : Int) : Json :=
  .jobj (.mcons "frame" (.jobj (.mcons "duration" (.jnum f) .mnil))
    (.mcons "transition" (.jobj (.mcons "duration" (.jnum t) .mnil)) .mnil))

def jC1w : Json :=
  .jobj (.mcons "updatemenus"
    (.jarr (.jcons (.jobj (.mcons "buttons"
      (.jarr (.jcons (.jobj (.mcons "args"
        (.jarr (.jcons (.jnum 0) (.jcons (argObjC1w 500 300) .jnil))) .mnil)) .jnil))
      .mnil)) .jnil))
    (.mcons "sliders"
      (.jarr (.jcons (.jobj (.mcons "steps"
        (.jarr (.jcons (.jobj (.mcons "args"
          (.jarr (.jcons (.jnum 0) (.jcons (argObjC1w 500 300) .jnil))) .mnil)) .jnil))
        .mnil)) .jnil))
      .mnil))

def jC1wRw : Json :=
  .jobj (.mcons "updatemenus"
    (.jarr (.jcons (.jobj (.mcons "buttons"
      (.jarr (.jcons (.jobj (.mcons "args"
        (.jarr (.jcons (.jnum 0) (.jcons (argObjC1w 50 0) .jnil))) .mnil)) .jnil))
      .mnil)) .jnil))
    (.mcons "sliders"
      (.jarr (.jcons (.jobj (.mcons "steps"
        (.jarr (.jcons (.jobj (.mcons "args"
          (.jarr (.jcons (.jnum 0) (.jcons (argObjC1w 50 0) .jnil))) .mnil)) .jnil))
        .mnil)) .jnil))
      .mnil))

/-- C1 (amended) witness: on the spec's example input (durations 500,
configured duration 50) the rewrite succeeds, the document renders with the
substituted layout, and button and slider-step durations are 50 with
transition 0. -/
theorem c1_amended_witness :
    jsonParse lsC1w = some jC1w ∧
    rewriteLayout 50 jC1w = .ok jC1wRw ∧
    display_html_file fsC1w "/app/Time Series/tr_animated.html" 600 none true 50 =
      .rendered (injectCss (stripSvgWidth (stripSvgHeight
        (replaceAllS htmlC1w lsC1w (dumpsV jC1wRw)))) 600 none) 600 none true ∧
    (buttonArgs1? jC1wRw).bind frameDur? = some (.jnum 50) ∧
    (buttonArgs1? jC1wRw).bind transDur? = some (.jnum 0) ∧
    ∀ st ∈ sliderStepsOf jC1wRw,
      (stepArgs1? st).bind frameDur? = some (.jnum 50) ∧
      (stepArgs1? st).bind transDur? = some (.jnum 0) := by
  have hmain := c1_amended fsC1w "/app/Time Series/tr_animated.html"
    "/app/Time Series/tr_animated.html" htmlC1w lsC1w 600 none true 50 jC1w jC1wRw
    (by decide) (by decide) (by decide) (by decide) (by decide) (by decide) (by decide)
  exact ⟨by decide, by decide, hmain.1, hmain.2.1, hmain.2.2.1, hmain.2.2.2⟩

theorem isPrefixOf_append_self (p b : List Char) :
    List.isPrefixOf p (p ++ b) = true := by
  induction p with
  | nil => simp [List.isPrefixOf]
  | cons c cs ih => simp [List.isPrefixOf, ih]

/-- Layout string of the C6 counterexample (empty frame and transition
objects, so that the rewrite succeeds by inserting the duration keys). -/
def lsC6 : String :=
  "\x7b\"updatemenus\": [\x7b\"buttons\": [\x7b\"args\": [0, \x7b\"frame\": \x7b\x7d, \"transition\": \x7b\x7d\x7d]\x7d]\x7d]\x7d"

/-- A document in which the isolated layout string also occurs verbatim
*before* the chart-initialization call. -/
def htmlC6 : String := lsC6 ++ "Plotly.newPlot(gd, [1], " ++ lsC6 ++ ", \x7b\x7d);"

/-- The re-serialized layout after the rewrite with duration 50. -/
def lsC6Rw : String :=
  "\x7b\"updatemenus\": [\x7b\"buttons\": [\x7b\"args\": [0, \x7b\"frame\": \x7b\"duration\": 50\x7d, \"transition\": \x7b\"duration\": 0\x7d\x7d]\x7d]\x7d]\x7d"

/-- C6 counterexample: the animation rewrite substitutes via `str.replace`,
which replaces *every* occurrence of the matched layout string — here also the
copy preceding the call.  The output no longer starts with the original bytes,
so the document is not byte-identical outside the matched location, refuting
the claim as stated. -/
theorem c6_counterexample :
    List.isPrefixOf lsC6.toList htmlC6.toList = true ∧
    animStep htmlC6 50 =
      .ok (lsC6Rw ++ "Plotly.newPlot(gd, [1], " ++ lsC6Rw ++ ", \x7b\x7d);") ∧
    List.isPrefixOf lsC6.toList
      (lsC6Rw ++ "Plotly.newPlot(gd, [1], " ++ lsC6Rw ++ ", \x7b\x7d);").toList = false := by
  refine ⟨by decide, ?_, by decide⟩
  decide

/-- C6 (amended): the re-serialized layout is substituted for *every*
occurrence of the matched layout string; in particular, when the matched
string occurs exactly once in the document, everything outside that occurrence
is byte-identical to the input. -/
theorem c6_amended (html ls : String) (d : Int) (j j' : Json) (a b : List Char)
    (hgate : hasNewPlotCall html = true)
    (hex : extractLayout html = some ls)
    (hparse : jsonParse ls = some j)
    (hrw : rewriteLayout d j = .ok j')
    (hsplit : html.toList = a ++ ls.toList ++ b)
    (hls : ls.toList ≠ [])
    (ha : ∀ a2 ∈ a.tails, a2 ≠ [] →
      List.isPrefixOf ls.toList (a2 ++ ls.toList ++ b) = false)
    (hb : ∀ b2 ∈ b.tails, List.isPrefixOf ls.toList b2 = false) :
    animStep html d = .ok (String.mk (a ++ (dumpsV j').toList ++ b)) := by
  rw [animStep_rewrite html ls d j j' hgate hex hparse hrw]
  unfold replaceAllS
  rw [hsplit]
  obtain ⟨m0, mr, hm⟩ : ∃ m0 mr, ls.toList = m0 :: mr := by
    cases hc : ls.toList with
    | nil => exact absurd hc hls
    | cons x xs => exact ⟨x, xs, rfl⟩
  rw [hm] at ha hb ⊢
  have hboundary := scanS_boundary (replTry (m0 :: mr) (dumpsV j').toList)
    a m0 mr b (dumpsV j').toList ?_ ?_
  · rw [hboundary]
    have hbno : scanS (replTry (m0 :: mr) (dumpsV j').toList) b = b := by
      apply scanS_noMatch
      unfold anyMatch
      rw [List.any_eq_false]
      intro t ht
      simp [replTry, hb t ht]
    rw [hbno]
  · intro a2 h2 hne
    simp only [replTry, ha a2 h2 hne, Bool.false_eq_true, if_false]
  · simp only [replTry, List.cons_append, isPrefixOf_append_self (m0 :: mr) b]
    simp

/-- C6 (amended) witness: a document containing the layout string exactly once
is rewritten in place, with the surrounding bytes unchanged. -/
theorem c6_amended_witness :
    animStep ("<html>Plotly.newPlot(gd, [1], " ++ lsC6 ++ ", \x7b\x7d);</html>") 50 =
      .ok (String.mk ("<html>Plotly.newPlot(gd, [1], ".toList
        ++ lsC6Rw.toList ++ ", \x7b\x7d);</html>".toList)) := by
  have h := c6_amended ("<html>Plotly.newPlot(gd, [1], " ++ lsC6 ++ ", \x7b\x7d);</html>")
    lsC6 50
    (.jobj (.mcons "updatemenus" (.jarr (.jcons (.jobj (.mcons "buttons"
      (.jarr (.jcons (.jobj (.mcons "args" (.jarr (.jcons (.jnum 0)
        (.jcons (.jobj (.mcons "frame" (.jobj .mnil)
          (.mcons "transition" (.jobj .mnil) .mnil))) .jnil))) .mnil)) .jnil))
      .mnil)) .jnil)) .mnil))
    (.jobj (.mcons "updatemenus" (.jarr (.jcons (.jobj (.mcons "buttons"
      (.jarr (.jcons (.jobj (.mcons "args" (.jarr (.jcons (.jnum 0)
        (.jcons (.jobj (.mcons "frame" (.jobj (.mcons "duration" (.jnum 50) .mnil))
          (.mcons "transition" (.jobj (.mcons "duration" (.jnum 0) .mnil)) .mnil))) .jnil)))
        .mnil)) .jnil)) .mnil)) .jnil)) .mnil))
    "<html>Plotly.newPlot(gd, [1], ".toList ", \x7b\x7d);</html>".toList
    (by decide) (by decide) (by decide) (by decide) (by decide) (by decide)
    (by decide) (by decide)
  have hd : (dumpsV (.jobj (.mcons "updatemenus" (.jarr (.jcons (.jobj (.mcons "buttons"
      (.jarr (.jcons (.jobj (.mcons "args" (.jarr (.jcons (.jnum 0)
        (.jcons (.jobj (.mcons "frame" (.jobj (.mcons "duration" (.jnum 50) .mnil))
          (.mcons "transition" (.jobj (.mcons "duration" (.jnum 0) .mnil)) .mnil))) .jnil)))
        .mnil)) .jnil)) .mnil)) .jnil)) .mnil))).toList = lsC6Rw.toList := by decide
  rw [hd] at h
  exact h

/-- C7: running the embed transform a second time on its own output changes no
transition duration that the first pass already set to zero and re-strips no
dimension attribute that the first pass already removed: a successfully
rewritten layout is a fixed point of the duration rewrite (the second pass
reproduces it, all zeroed transitions included), and each svg dimension
stripper is the identity on text with no remaining attribute match. -/
theorem c7_second_pass_noop :
    (∀ (d : Int) (j j' : Json),
      rewriteLayout d j = .ok j' → rewriteLayout d j' = .ok j') ∧
    (∀ s : String, anyMatch (svgTry "height".toList) s.toList = false →
      stripSvgHeight s = s) ∧
    (∀ s : String, anyMatch (svgTry "width".toList) s.toList = false →
      stripSvgWidth s = s) := by
  refine ⟨rewriteLayout_idem, ?_, ?_⟩
  · intro s hs
    unfold stripSvgHeight
    rw [scanS_noMatch _ _ hs]
    rfl
  · intro s hs
    unfold stripSvgWidth
    rw [scanS_noMatch _ _ hs]
    rfl

/-- A small layout used by the C7 witness. -/
def jC7 : Json :=
  .jobj (.mcons "updatemenus"
    (.jarr (.jcons (.jobj (.mcons "buttons"
      (.jarr (.jcons (.jobj (.mcons "args"
        (.jarr (.jcons (.jnum 0) (.jcons
          (.jobj (.mcons "frame" (.jobj (.mcons "duration" (.jnum 500) .mnil))
            (.mcons "transition" (.jobj (.mcons "duration" (.jnum 300) .mnil)) .mnil)))
          .jnil))) .mnil)) .jnil)) .mnil)) .jnil)) .mnil)

/-- The same layout after the rewrite with duration 50. -/
def jC7Rw : Json :=
  .jobj (.mcons "updatemenus"
    (.jarr (.jcons (.jobj (.mcons "buttons"
      (.jarr (.jcons (.jobj (.mcons "args"
        (.jarr (.jcons (.jnum 0) (.jcons
          (.jobj (.mcons "frame" (.jobj (.mcons "duration" (.jnum 50) .mnil))
            (.mcons "transition" (.jobj (.mcons "duration" (.jnum 0) .mnil)) .mnil)))
          .jnil))) .mnil)) .jnil)) .mnil)) .jnil)) .mnil)

/-- C7 witness: the rewritten layout is reproduced unchanged by a second
rewrite, and a text with no svg dimension attribute is left untouched by a
second stripping pass. -/
theorem c7_second_pass_noop_witness :
    rewriteLayout 50 jC7 = .ok jC7Rw ∧
    rewriteLayout 50 jC7Rw = .ok jC7Rw ∧
    stripSvgHeight "<p>no attributes here</p>" = "<p>no attributes here</p>" :=
  ⟨by decide,
   c7_second_pass_noop.1 50 jC7 jC7Rw (by decide),
   c7_second_pass_noop.2.1 "<p>no attributes here</p>" (by decide)⟩

/-- Filesystem of the C8 counterexample: a chart whose svg root tag carries
two height attributes. -/
def fsC8 : FileSys :=
  [("/app/Neighborhoods/c8.html", Except.ok "<svg height=\"1\" height=\"2\"></svg>")]

/-- C8 counterexample: on a tag with two pixel height attributes, one
stripping pass removes only the last one (the greedy `[^>]*` of the pattern
swallows the earlier attribute), so `height="1"` — an attribute of the exact
form the claim says is removed from every svg root tag — survives in the
rendered output, refuting the claim as stated. -/
theorem c8_counterexample :
    stripSvgHeight "<svg height=\"1\" height=\"2\"></svg>"
      = "<svg height=\"1\"></svg>" ∧
    display_html_file fsC8 "/app/Neighborhoods/c8.html" 600 none true 50 =
      .rendered (cssInjection 600 none ++ "<svg height=\"1\"></svg>") 600 none true ∧
    containsStr (cssInjection 600 none ++ "<svg height=\"1\"></svg>")
      "<svg height=\"1\">" = true := by
  refine ⟨by decide, ?_, by decide⟩
  decide

/-- C8 (amended): each stripping pass removes, per svg root tag, the last
matching dimension attribute: whenever the svg-attribute matcher consumes a
span `m` (emitting the tag text `e` with the attribute dropped) at a position
before which no match starts, the pass yields exactly `a ++ e ++ b` — so a tag
whose height (or width) attribute is unique loses it entirely; and in the
fragment variant, inline `height:<digits>px` / `width:<digits>px` declarations
are removed, so the spec's example style attribute loses both pixel values. -/
theorem c8_amended :
    (∀ (attr : List Char) (a b e : List Char) (m0 : Char) (mr : List Char),
      svgTry attr ((m0 :: mr) ++ b) = some (e, mr.length) →
      (∀ a2 ∈ a.tails, a2 ≠ [] → svgTry attr (a2 ++ (m0 :: mr) ++ b) = none) →
      anyMatch (svgTry attr) b = false →
      scanS (svgTry attr) (a ++ (m0 :: mr) ++ b) = a ++ e ++ b) ∧
    stripPxWidth (stripPxHeight "<div style=\"height:450px;width:300px;\"></div>")
      = "<div style=\"\"></div>" ∧
    containsStr (mapClean "<div style=\"height:450px;width:300px;\"></div>")
      "450px" = false ∧
    containsStr (mapClean "<div style=\"height:450px;width:300px;\"></div>")
      "300px" = false := by
  refine ⟨?_, by decide, by decide, by decide⟩
  intro attr a b e m0 mr hm ha hb
  rw [scanS_boundary (svgTry attr) a m0 mr b e ha hm]
  rw [scanS_noMatch _ _ hb]

/-- C8 (amended) witness: a tag with one height attribute loses it — the
matcher consumes `<svg class="c" height="450"` emitting `<svg class="c"`, with
prefix `<p>x</p>` and remainder `>rest` untouched. -/
theorem c8_amended_witness :
    scanS (svgTry "height".toList)
      ("<p>x</p>".toList ++ "<svg class=\"c\" height=\"450\"".toList ++ ">rest".toList)
      = "<p>x</p>".toList ++ "<svg class=\"c\"".toList ++ ">rest".toList := by
  have h := c8_amended.1 "height".toList "<p>x</p>".toList ">rest".toList
    "<svg class=\"c\"".toList '<' "svg class=\"c\" height=\"450\"".toList
    (by decide) (by decide) (by decide)
  exact h
